import Mathlib

/-!
Verification development for the `pubport` crate: a normalizer that ingests
textual/JSON representations of a Bitcoin wallet's public-key material and
produces a canonical pair of watch-only output descriptors.

The Rust sources are shallowly embedded here.  Text is modelled as `List Char`
(`Str`), machine integers as `Nat` (u32 values carry their BIP-32 hardened
flag `2^31` exactly as the source's `to_u32_vec` representation does), and
fallible Rust functions return `Except`; functions that can reach a Rust
panic (out-of-bounds slicing, `copy_from_slice` length mismatch) return
`RustResult`, whose `panic` constructor marks the partiality branch.

External trusted primitives (base58Check codec, secp256k1-backed
`Xpub::from_str`, serde JSON deserialization) are parameters collected in an
`Env` record: theorems quantify over every implementation of them, and
concrete witnesses instantiate them with small test environments.  The
descriptor-language parser (`miniscript::Descriptor::parse_descriptor`,
`into_single_descriptors`, `Display`) is modelled concretely, restricted to
the single-key descriptor fragment this crate produces and consumes;
checksum validation is treated as trusted and the rendered text is the
descriptor body (the checksum is a derived artifact of the external
library).
-/

namespace Pubport

/-- Text is modelled as a list of characters. -/
abbrev Str := List Char

/-- The apostrophe character (ASCII 39), used as the hardened marker in
derivation paths. -/
def apoChar : Char := Char.ofNat 39

/-- The opening-brace character (ASCII 123), used by the JSON sniffing in
`Descriptors::try_from`. -/
def lbraceChar : Char := Char.ofNat 123

/-- Split a character list at every occurrence of `c` (Rust `str::split`). -/
def splitOnChar (c : Char) : Str → List Str
  | [] => [[]]
  | x :: xs =>
    if x = c then [] :: splitOnChar c xs
    else
      match splitOnChar c xs with
      | h :: t => (x :: h) :: t
      | [] => [[x]]

/-- Split a character list at the first occurrence of `c`, returning the
pieces before and after it (Rust `memchr` + slicing, or `splitn(2, c)`). -/
def splitFirst (c : Char) : Str → Option (Str × Str)
  | [] => none
  | x :: xs =>
    if x = c then some ([], xs)
    else (splitFirst c xs).map (fun p => (x :: p.1, p.2))

/-- Replace every non-overlapping occurrence of `pat` in `l` by `rep`,
scanning left to right (Rust `str::replace`). -/
def replaceAll (pat rep : Str) (l : Str) : Str :=
  if hpat : pat = [] then l
  else
    match l with
    | [] => []
    | c :: rest =>
      if pat.isPrefixOf (c :: rest) then
        rep ++ replaceAll pat rep ((c :: rest).drop pat.length)
      else
        c :: replaceAll pat rep rest
termination_by l.length
decreasing_by
  · simp only [List.length_drop]
    have : 1 ≤ pat.length := by
      cases pat with
      | nil => exact absurd rfl hpat
      | cons a b => simp
    simp only [List.length_cons]
    omega
  · simp

/-- Trim leading and trailing whitespace (Rust `str::trim`). -/
def trimStr (l : Str) : Str :=
  ((l.dropWhile Char.isWhitespace).reverse.dropWhile Char.isWhitespace).reverse

/-- Rust `char::is_ascii_hexdigit`. -/
def isHexDigitChar (c : Char) : Bool :=
  c.isDigit || ('a' ≤ c && c ≤ 'f') || ('A' ≤ c && c ≤ 'F')

/-- Parse a nonempty all-digit string into a `Nat` (the happy path of Rust
`u32::from_str`; the `u32` range check is applied by the callers below). -/
def parseNatDigits (l : Str) : Option Nat :=
  if l = [] then none
  else if l.all Char.isDigit then
    some (l.foldl (fun acc c => acc * 10 + (c.toNat - 48)) 0)
  else none

/-- Render a `Nat` in decimal. -/
def natDigits (n : Nat) : Str := (Nat.repr n).data

/-- UTF-8 byte length of a character list (Rust `str::len`). -/
def byteLen (l : Str) : Nat := (l.map Char.utf8Size).sum

/-! ## BIP-32 derivation paths (modelling `bitcoin::bip32`)

A `DerivationPath` is the `to_u32_vec` representation used by the source: a
list of `u32` child numbers where a hardened index `i` is stored as
`i + 2^31`. -/

/-- Decidable equality for `Except`, used to evaluate concrete runs of the
embedded functions. -/
instance {ε α : Type} [DecidableEq ε] [DecidableEq α] : DecidableEq (Except ε α) :=
  fun x y =>
    match x, y with
    | .ok a, .ok b =>
      if h : a = b then .isTrue (by rw [h]) else .isFalse (by simp [h])
    | .error a, .error b =>
      if h : a = b then .isTrue (by rw [h]) else .isFalse (by simp [h])
    | .ok _, .error _ => .isFalse (by simp)
    | .error _, .ok _ => .isFalse (by simp)

/-- The result of a Rust call that can also panic. -/
inductive RustResult (ε α : Type) where
  | ok (a : α)
  | err (e : ε)
  | panic
  deriving DecidableEq, Repr

/-- Errors of the external `bitcoin::bip32` parsing primitives, as far as the
embedded code distinguishes them.  `other` lets an environment inject any
further error of the external library. -/
inductive Bip32Error where
  | invalidChildNumber (n : Nat)
  | invalidChildNumberFormat
  | other (code : Nat)
  deriving DecidableEq, Repr

/-- A derivation path in `to_u32_vec` form. -/
abbrev DerivationPath := List Nat

/-- The hardened flag `1 << 31` from `script_type.rs`. -/
def hardenedFlag : Nat := 1 <<< 31

/-- Parse one path segment (`bitcoin::bip32::ChildNumber::from_str`): an
optional trailing apostrophe or `h` marks a hardened index; the numeric part
must be a valid `u32` below `2^31`. -/
def childNumberFromStr (seg : Str) : Except Bip32Error Nat :=
  let isHard : Bool :=
    match seg.getLast? with
    | some c => c = apoChar || c = 'h'
    | none => false
  if isHard then
    match parseNatDigits seg.dropLast with
    | none => .error .invalidChildNumberFormat
    | some n =>
      if 2 ^ 32 ≤ n then .error .invalidChildNumberFormat
      else if hardenedFlag ≤ n then .error (.invalidChildNumber n)
      else .ok (n + hardenedFlag)
  else
    match parseNatDigits seg with
    | none => .error .invalidChildNumberFormat
    | some n =>
      if 2 ^ 32 ≤ n then .error .invalidChildNumberFormat
      else if hardenedFlag ≤ n then .error (.invalidChildNumber n)
      else .ok n

/-- Parse a derivation path string (`bitcoin::bip32::DerivationPath::from_str`):
empty, `m` and `m/` denote the empty path, an optional leading `m/` is
stripped, and the remaining `/`-separated segments are child numbers. -/
def derivationPathFromStr (l : Str) : Except Bip32Error DerivationPath :=
  if l = [] ∨ l = "m".data ∨ l = "m/".data then .ok []
  else
    let l' := if ("m/".data).isPrefixOf l then l.drop 2 else l
    (splitOnChar '/' l').mapM childNumberFromStr

/-- Render one child number (`Display` of `ChildNumber`): hardened indices
carry a trailing apostrophe. -/
def renderChild (n : Nat) : Str :=
  if hardenedFlag ≤ n then natDigits (n - hardenedFlag) ++ [apoChar]
  else natDigits n

/-- Render a derivation path with `/` separators (`Display` of
`DerivationPath`, without the leading `m`). -/
def renderPath (p : DerivationPath) : Str :=
  List.intercalate ['/'] (p.map renderChild)

/-! ## `descriptor/script_type.rs` -/

/-- The three supported script types. -/
inductive ScriptType where
  | p2pkh
  | p2shP2wpkh
  | p2wpkh
  deriving DecidableEq, Repr

/-- Error type of `script_type.rs`. -/
inductive ScriptTypeError where
  | invalidPath (path : List Nat)
  | notHardened
  deriving DecidableEq, Repr

/-- Constant `HARDENED_44` from `script_type.rs`. -/
def HARDENED_44 : Nat := 44 ^^^ hardenedFlag

/-- Constant `HARDENED_49` from `script_type.rs`. -/
def HARDENED_49 : Nat := 49 ^^^ hardenedFlag

/-- Constant `HARDENED_84` from `script_type.rs`. -/
def HARDENED_84 : Nat := 84 ^^^ hardenedFlag

/-- Helper `is_hardened` from `script_type.rs`: every entry carries the
hardened flag. -/
def isHardenedVec (path : List Nat) : Bool :=
  path.all (fun p => hardenedFlag ≤ p)

/-- Helper `hardened_or_error` from `script_type.rs`. -/
def hardenedOrError (path : List Nat) (scriptType : ScriptType) :
    Except ScriptTypeError ScriptType :=
  if isHardenedVec path then .ok scriptType else .error .notHardened

/-- `ScriptType::try_from_derivation_path`: match on the `to_u32_vec` form of
a three-segment path. -/
def ScriptType.tryFromDerivationPath (path : DerivationPath) :
    Except ScriptTypeError ScriptType :=
  match path with
  | [a, b, c] =>
    if a = HARDENED_44 then hardenedOrError [b, c] .p2pkh
    else if a = HARDENED_49 then hardenedOrError [b, c] .p2shP2wpkh
    else if a = HARDENED_84 then hardenedOrError [b, c] .p2wpkh
    else if a = 44 then .error .notHardened
    else if a = 49 then .error .notHardened
    else if a = 84 then .error .notHardened
    else .error (.invalidPath path)
  | _ => .error (.invalidPath path)

/-- `ScriptType::descriptor_derivation_path`: the hard-coded derivation-path
prefix used when assembling a descriptor from a bare child xpub.  Note that
the `P2shP2wpkh` arm of the source returns only two segments. -/
def ScriptType.descriptorDerivationPath : ScriptType → Str
  | .p2pkh => "44".data ++ [apoChar] ++ "/0".data ++ [apoChar] ++ "/0".data ++ [apoChar]
  | .p2shP2wpkh => "49".data ++ [apoChar] ++ "/0".data ++ [apoChar]
  | .p2wpkh => "84".data ++ [apoChar] ++ "/0".data ++ [apoChar] ++ "/0".data ++ [apoChar]

/-- `ScriptType::wrap_with`: apply the descriptor template of the script
type to the inner key expression text. -/
def ScriptType.wrapWith (st : ScriptType) (script : Str) : Str :=
  match st with
  | .p2pkh => "pkh(".data ++ script ++ ")".data
  | .p2shP2wpkh => "sh(wpkh(".data ++ script ++ "))".data
  | .p2wpkh => "wpkh(".data ++ script ++ ")".data

/-! ## `xpub.rs` -/

/-- Error of the external base58Check decoder; the embedded code never
inspects it, so it is an abstract code. -/
structure Base58Error where
  code : Nat
  deriving DecidableEq, Repr

/-- Error enum of `xpub.rs`. -/
inductive XpubError where
  | invalidXpub (e : Bip32Error)
  | invalidZpub (e : Base58Error)
  | invalidYpubDecode (e : Base58Error)
  | invalidYpubLength (n : Nat)
  | notXpub (s : Str)
  | tooShort (n : Nat)
  | missingXpub
  deriving DecidableEq, Repr

/-- The decoded form of an extended public key
(`bitcoin::bip32::Xpub`), with only the fields the embedded code reads.
`ownFingerprint` stands for the external hash-derived `Xpub::fingerprint()`
and `asString` for the key's base58Check `Display` rendering; both are
trusted external computations over the key bytes and are therefore modelled
as stored data of the decoded key. -/
structure Bip32Xpub where
  depth : Nat
  parentFingerprint : List Nat
  ownFingerprint : List Nat
  asString : Str
  deriving DecidableEq, Repr

/-! ### Data models of `json.rs`

These mirror the serde-deserialized record types; the deserializers
themselves are external trusted plumbing and live in `Env`. -/

/-- One single-sig entry of the generic JSON export (`SingleSig`). -/
structure SingleSig where
  name : Option ScriptType
  xfp : Option Str
  deriv : Option Str
  xpub : Option Str
  descriptor : Option Str
  first : Option Str
  deriving Repr

/-- The generic JSON export shape (`GenericJson`). -/
structure GenericJson where
  chain : Option Str
  xfp : Option Str
  xpub : Option Str
  bip44 : Option SingleSig
  bip49 : Option SingleSig
  bip84 : Option SingleSig
  deriving Repr

/-- The cold-card style export (`WasabiJson`). -/
structure WasabiJson where
  coldCardFirmwareVersion : Str
  masterFingerprint : Str
  extPubKey : Str
  deriving Repr

/-- The keystore of an Electrum-style export (`Keystore`).  `ckccXfp` is a
`u32` in the source. -/
structure Keystore where
  derivation : Str
  xpub : Str
  ckccXfp : Option Nat
  ckccXpub : Option Str
  deriving Repr

/-- The Electrum-style export (`ElectrumJson`). -/
structure ElectrumJson where
  seedVersion : Nat
  useEncryption : Bool
  walletType : Str
  keystore : Keystore
  deriving Repr

/-- The external trusted primitives (spec section 1): base58Check codec,
extended-key decoding, and the serde deserializers of the vendor JSON
schemas (`none` models a serde error).  Theorems quantify over every
implementation. -/
structure Env where
  decodeCheck : Str → Except Base58Error (List Nat)
  encodeCheck : List Nat → Str
  xpubFromStr : Str → Except Bip32Error Bip32Xpub
  parseGenericJson : Str → Option GenericJson
  parseWasabiJson : Str → Option WasabiJson
  parseElectrumJson : Str → Option ElectrumJson
  parseJsonDescriptor : Str → Option Str

/-- The canonical xpub version bytes `04 88 B2 1E`. -/
def xpubVersionBytes : List Nat := [0x04, 0x88, 0xB2, 0x1E]

/-- `zpub_to_xpub` from `xpub.rs`: base58Check-decode, overwrite the four
version bytes, re-encode.  The fixed-size `copy_from_slice` into a 78-byte
buffer (and the `decoded[4..]` slice) panics unless the decoded payload has
exactly 78 bytes; no length error is returned on this path. -/
def zpubToXpub (env : Env) (zpub : Str) : RustResult XpubError Str :=
  match env.decodeCheck zpub with
  | .error e => .err (.invalidZpub e)
  | .ok decoded =>
    if decoded.length = 78 then
      .ok (env.encodeCheck (xpubVersionBytes ++ decoded.drop 4))
    else .panic

/-- `ypub_to_xpub` from `xpub.rs`: like the zpub path but with an explicit
length check that fails with `InvalidYpubLength` before any copying. -/
def ypubToXpub (env : Env) (ypub : Str) : RustResult XpubError Str :=
  match env.decodeCheck ypub with
  | .error e => .err (.invalidYpubDecode e)
  | .ok decoded =>
    if decoded.length ≠ 78 then .err (.invalidYpubLength decoded.length)
    else .ok (env.encodeCheck (xpubVersionBytes ++ decoded.drop 4))

/-- `xpub_to_fingerprint` from `xpub.rs`: an all-zero stored parent
fingerprint is replaced by the key's own computed fingerprint. -/
def xpubToFingerprint (xpub : Bip32Xpub) : Except XpubError (List Nat) :=
  match xpub.parentFingerprint with
  | [0, 0, 0, 0] => .ok xpub.ownFingerprint
  | _ => .ok xpub.parentFingerprint

/-- `xpub_str_to_fingerprint` from `xpub.rs`. -/
def xpubStrToFingerprint (env : Env) (s : Str) : Except XpubError (List Nat) :=
  match env.xpubFromStr s with
  | .error e => .error (.invalidXpub e)
  | .ok x => xpubToFingerprint x

/-- Tag `OriginalFormat` from `xpub.rs`. -/
inductive OriginalFormat where
  | zpub
  | ypub
  | xpub
  deriving DecidableEq, Repr

/-- The crate's `Xpub` wrapper struct. -/
structure XpubS where
  xpub : Bip32Xpub
  originalFormat : OriginalFormat
  deriving DecidableEq, Repr

/-- Take the characters spanning exactly `rem` UTF-8 bytes from the front
of `l`, or `none` when `l` is shorter than `rem` bytes or byte index `rem`
is not a character boundary. -/
def takeBytesBoundary (l : Str) (rem : Nat) : Option Str :=
  if rem = 0 then some []
  else
    match l with
    | [] => none
    | c :: rest =>
      if c.utf8Size ≤ rem then (takeBytesBoundary rest (rem - c.utf8Size)).map (c :: ·)
      else none

/-- Model of the Rust slice expression `&s[..4]`: the first four BYTES of
the string, or a panic when the string is shorter than four bytes or byte
index 4 is not a character boundary. -/
def prefix4Bytes (s : Str) : Option Str :=
  takeBytesBoundary s 4

/-- `impl TryFrom<&str> for Xpub` from `xpub.rs`: dispatch on the first four
bytes of the input (a panic when the input is shorter), convert zpub/ypub
variants, then decode with the external `Xpub::from_str`. -/
def xpubTryFrom (env : Env) (s : Str) : RustResult XpubError XpubS :=
  match prefix4Bytes s with
  | none => .panic
  | some p4 =>
    let conv : RustResult XpubError (Str × OriginalFormat) :=
      if p4 = "zpub".data then
        match zpubToXpub env s with
        | .ok x => .ok (x, .zpub)
        | .err e => .err e
        | .panic => .panic
      else if p4 = "ypub".data then
        match ypubToXpub env s with
        | .ok x => .ok (x, .ypub)
        | .err e => .err e
        | .panic => .panic
      else if p4 = "xpub".data then .ok (s, .xpub)
      else .err (.notXpub p4)
    match conv with
    | .ok (xs, fmt) =>
      match env.xpubFromStr xs with
      | .ok x => .ok ⟨x, fmt⟩
      | .error e => .err (.invalidXpub e)
    | .err e => .err e
    | .panic => .panic

/-! ## Model of the external descriptor-language parser

The crate delegates descriptor parsing, the multipath test, the multipath
split and descriptor rendering to `miniscript`.  Only the single-key
fragment that the crate produces and consumes is modelled: one of the three
supported templates wrapping a key expression `[fp/path]key/step/...` whose
steps are plain child indices, a multipath marker `<a;b;...>` or a
wildcard `*`.  Keys are abstract nonempty alphanumeric strings (base58
validity of the key text is a trusted external check).  A `#`-suffixed
checksum is accepted and stripped; its validation is trusted. -/

/-- One derivation step after the key inside a descriptor. -/
inductive Step where
  | num (n : Nat)
  | multi (branches : List Nat)
  | star
  deriving DecidableEq, Repr

/-- Parse errors of the modelled external descriptor parser
(`miniscript::Error` / `DescriptorKeyParseError`). -/
inductive DescParseError where
  | badTemplate
  | badOrigin
  | badFingerprint
  | badKey
  | badStep
  | multipathLenMismatch
  deriving DecidableEq, Repr

/-- A parsed single-key descriptor.  The origin fingerprint is stored
lowercased, modelling the hex-to-bytes normalization of the external
parser (whose `Display` renders fingerprints in lowercase hex). -/
structure ParsedDesc where
  template : ScriptType
  origin : Option (Str × DerivationPath)
  key : Str
  steps : List Step
  deriving DecidableEq, Repr

/-- Drop a `#`-suffixed checksum if present (checksum validation is an
external trusted step). -/
def stripChecksum (l : Str) : Str :=
  match splitFirst '#' l with
  | some (body, _) => body
  | none => l

/-- Strip `suf` from the end of `l`, if it is a suffix. -/
def stripSuffixN (suf l : Str) : Option Str :=
  if suf.isSuffixOf l then some (l.take (l.length - suf.length)) else none

/-- Recognize one of the three supported descriptor templates and expose the
inner key-expression text. -/
def stripTemplate (l : Str) : Except DescParseError (ScriptType × Str) :=
  if ("sh(wpkh(".data).isPrefixOf l then
    match stripSuffixN "))".data (l.drop 8) with
    | some inner => .ok (.p2shP2wpkh, inner)
    | none => .error .badTemplate
  else if ("pkh(".data).isPrefixOf l then
    match stripSuffixN ")".data (l.drop 4) with
    | some inner => .ok (.p2pkh, inner)
    | none => .error .badTemplate
  else if ("wpkh(".data).isPrefixOf l then
    match stripSuffixN ")".data (l.drop 5) with
    | some inner => .ok (.p2wpkh, inner)
    | none => .error .badTemplate
  else .error .badTemplate

/-- Parse an optional bracketed key origin: an 8-hex-digit fingerprint and
an optional derivation path. -/
def parseOrigin (l : Str) :
    Except DescParseError (Option (Str × DerivationPath) × Str) :=
  match l with
  | [] => .ok (none, [])
  | c :: rest =>
    if c = '[' then
      match splitFirst ']' rest with
      | none => .error .badOrigin
      | some (content, after) =>
        match splitFirst '/' content with
        | none =>
          if content.length == 8 && content.all isHexDigitChar then
            .ok (some (content.map Char.toLower, []), after)
          else .error .badFingerprint
        | some (fp, pathStr) =>
          if fp.length == 8 && fp.all isHexDigitChar then
            match derivationPathFromStr pathStr with
            | .ok p => .ok (some (fp.map Char.toLower, p), after)
            | .error _ => .error .badOrigin
          else .error .badFingerprint
    else .ok (none, l)

/-- Parse one step after the key. -/
def parseStep (s : Str) : Except DescParseError Step :=
  if s = "*".data then .ok .star
  else if s.head? = some '<' then
    match stripSuffixN ">".data (s.drop 1) with
    | none => .error .badStep
    | some inner =>
      match (splitOnChar ';' inner).mapM parseNatDigits with
      | some ns => if 2 ≤ ns.length then .ok (.multi ns) else .error .badStep
      | none => .error .badStep
  else
    match parseNatDigits s with
    | some n => if n < hardenedFlag then .ok (.num n) else .error .badStep
    | none => .error .badStep

/-- Parse the key text and the derivation steps following it. -/
def parseKeySteps (l : Str) : Except DescParseError (Str × List Step) :=
  match splitOnChar '/' l with
  | [] => .error .badKey
  | key :: segs =>
    if key.isEmpty || !key.all Char.isAlphanum then .error .badKey
    else do
      let steps ← segs.mapM parseStep
      .ok (key, steps)

/-- The modelled `miniscript::Descriptor::parse_descriptor` on one line. -/
def parseDescLine (l : Str) : Except DescParseError ParsedDesc := do
  let (tpl, inner) ← stripTemplate (stripChecksum l)
  let (origin, rest) ← parseOrigin inner
  let (key, steps) ← parseKeySteps rest
  .ok ⟨tpl, origin, key, steps⟩

/-- Render one step (inverse direction of `parseStep`). -/
def renderStep : Step → Str
  | .num n => natDigits n
  | .multi ns => '<' :: List.intercalate [';'] (ns.map natDigits) ++ [Char.ofNat 62]
  | .star => ['*']

/-- Render the inner key expression of a parsed descriptor. -/
def renderInner (p : ParsedDesc) : Str :=
  (match p.origin with
   | some (fp, path) =>
     '[' :: fp ++ (if path = [] then [] else '/' :: renderPath path) ++ [']']
   | none => []) ++ p.key ++ (p.steps.map (fun s => '/' :: renderStep s)).flatten

/-- Render a parsed descriptor back to text (the external `Display`, minus
the derived checksum). -/
def renderDesc (p : ParsedDesc) : Str := p.template.wrapWith (renderInner p)

/-- Whether a step is a multipath marker. -/
def Step.isMulti : Step → Bool
  | .multi _ => true
  | _ => false

/-- The external `Descriptor::is_multipath`. -/
def ParsedDesc.isMultipath (p : ParsedDesc) : Bool := p.steps.any Step.isMulti

/-- Substitute branch `k` for every multipath marker. -/
def applyBranch (k : Nat) : Step → Step
  | .multi ns => .num (ns.getD k 0)
  | s => s

/-- A parsed descriptor with branch `k` chosen at every multipath marker. -/
def substBranch (k : Nat) (p : ParsedDesc) : ParsedDesc :=
  { p with steps := p.steps.map (applyBranch k) }

/-- The arities of the multipath markers of a descriptor. -/
def multiArities (p : ParsedDesc) : List Nat :=
  p.steps.filterMap fun s =>
    match s with
    | .multi ns => some ns.length
    | _ => none

/-- The external `Descriptor::into_single_descriptors`: one descriptor per
branch, provided all multipath markers agree on the branch count. -/
def intoSingleDescriptors (p : ParsedDesc) :
    Except DescParseError (List ParsedDesc) :=
  match multiArities p with
  | [] => .ok [p]
  | n :: rest =>
    if rest.all (· == n) then
      .ok ((List.range n).map (fun k => substBranch k p))
    else .error .multipathLenMismatch

/-! ## Fingerprint rendering helpers -/

/-- Lowercase hex digit for a nibble. -/
def hexCharLower (n : Nat) : Char :=
  if n < 10 then Char.ofNat (48 + n) else Char.ofNat (87 + n)

/-- Uppercase hex digit for a nibble. -/
def hexCharUpper (n : Nat) : Char :=
  if n < 10 then Char.ofNat (48 + n) else Char.ofNat (55 + n)

/-- Lowercase-hex `Display` of a `bitcoin::bip32::Fingerprint`, two digits
per byte. -/
def fpToStr (bytes : List Nat) : Str :=
  (bytes.map (fun b => [hexCharLower (b / 16 % 16), hexCharLower (b % 16)])).flatten

/-- Rust `format!("{:08X}", v)` for a `u32` value. -/
def hex8Upper (v : Nat) : Str :=
  (List.range 8).map (fun i => hexCharUpper (v / 16 ^ (7 - i) % 16))

/-- Rust `u32::swap_bytes`. -/
def swapBytes32 (v : Nat) : Nat :=
  v % 256 * 2 ^ 24 + v / 2 ^ 8 % 256 * 2 ^ 16 + v / 2 ^ 16 % 256 * 2 ^ 8
    + v / 2 ^ 24 % 256

/-! ## `key_expression.rs` data model (the parser itself comes below) -/

/-- A parsed key expression (`KeyExpression`). -/
structure KeyExpression where
  xpub : Bip32Xpub
  masterFingerprint : Option (List Nat)
  originDerivationPath : Option DerivationPath
  derivationPath : Option DerivationPath
  deriving DecidableEq, Repr

/-- The `/<0;1>/*` tail appended to every assembled key expression. -/
def multipathTail : Str := "/<0;1>/*".data

/-- The placeholder all-zero fingerprint text. -/
def zeroFpStr : Str := "00000000".data

/-! ## `descriptor.rs` -/

/-- Error enum of `descriptor.rs`. -/
inductive DescriptorError where
  | invalidDescriptor (e : DescParseError)
  | missingKeys
  | tooManyKeys (n : Nat)
  | invalidDescriptorParse (e : DescParseError)
  | invalidJsonDescriptor
  | missingDescriptor
  | missingXpub
  | missingDerivationPath
  | missingScriptType
  | missingFingerprint
  | invalidXpub (e : XpubError)
  | unableToParseXpub (e : Bip32Error)
  | noXpubInDescriptor
  | singlePubkeyNotSupported
  | masterXpub
  | scriptTypeParseError (e : ScriptTypeError)
  | missingKeyExpressionFields
  deriving DecidableEq, Repr

/-- The canonical output pair (`Descriptors`). -/
structure Descriptors where
  external : ParsedDesc
  internal : ParsedDesc
  deriving DecidableEq, Repr

/-- `Descriptors::try_from_line`: parse one descriptor line, require it to
be multipath, split it, and require exactly two single descriptors. -/
def Descriptors.tryFromLine (line : Str) : Except DescriptorError Descriptors :=
  match parseDescLine line with
  | .error e => .error (.invalidDescriptorParse e)
  | .ok descriptor =>
    if !descriptor.isMultipath then .error .missingKeys
    else
      match intoSingleDescriptors descriptor with
      | .error e => .error (.invalidDescriptorParse e)
      | .ok multi =>
        match multi with
        | [ext, int] => .ok ⟨ext, int⟩
        | [] => .error .missingKeys
        | [_] => .error .missingKeys
        | l => .error (.tooManyKeys l.length)

/-- `Descriptors::try_from_single_sig`: prefer a verbatim descriptor field,
else assemble from script type, fingerprint, derivation and xpub. -/
def Descriptors.tryFromSingleSig (singleSig : SingleSig)
    (fingerprint : Option Str) : Except DescriptorError Descriptors :=
  match singleSig.descriptor with
  | some desc => Descriptors.tryFromLine desc
  | none =>
    match singleSig.name with
    | none => .error .missingScriptType
    | some scriptType =>
      match singleSig.xpub with
      | none => .error .missingXpub
      | some xpub =>
        match fingerprint with
        | none => .error .missingFingerprint
        | some fp =>
          match singleSig.deriv with
          | none => .error .missingDerivationPath
          | some deriv =>
            let fingerprint := fp.map Char.toLower
            let derivationPath := replaceAll "m/".data [] deriv
            let script :=
              '[' :: (fingerprint ++ '/' :: (derivationPath ++ ']' :: (xpub ++ multipathTail)))
            Descriptors.tryFromLine (scriptType.wrapWith script)

/-- `Descriptors::try_from_child_xpub`: reject master keys, then assemble
with the placeholder all-zero fingerprint and the script type's hard-coded
derivation-path prefix. -/
def Descriptors.tryFromChildXpub (xpub : Bip32Xpub) (scriptType : ScriptType) :
    Except DescriptorError Descriptors :=
  if xpub.depth = 0 then .error .masterXpub
  else
    let descriptorDerivationPath := scriptType.descriptorDerivationPath
    let fingerprint := zeroFpStr
    let descScript :=
      '[' :: (fingerprint ++ '/' :: (descriptorDerivationPath
        ++ ']' :: (xpub.asString ++ multipathTail)))
    Descriptors.tryFromLine (scriptType.wrapWith descScript)

/-- `Descriptors::try_from_key_expression`: requires a master fingerprint
and an origin path, infers the script type from that path, assembles. -/
def Descriptors.tryFromKeyExpression (keyExpression : KeyExpression) :
    Except DescriptorError Descriptors :=
  match keyExpression.masterFingerprint, keyExpression.originDerivationPath with
  | some masterFingerprint, some path =>
    match ScriptType.tryFromDerivationPath path with
    | .error e => .error (.scriptTypeParseError e)
    | .ok scriptType =>
      let script :=
        '[' :: (fpToStr masterFingerprint ++ '/' :: (renderPath path
          ++ ']' :: (keyExpression.xpub.asString ++ multipathTail)))
      Descriptors.tryFromLine (scriptType.wrapWith script)
  | _, _ => .error .missingKeyExpressionFields

/-- `impl TryFrom<WasabiJson> for Descriptors`: fixed BIP-84 derivation. -/
def Descriptors.tryFromWasabi (json : WasabiJson) :
    Except DescriptorError Descriptors :=
  let fingerprint := json.masterFingerprint.map Char.toLower
  let derivationPath := "84h/0h/0h".data
  let xpub := json.extPubKey
  let script :=
    '[' :: (fingerprint ++ '/' :: (derivationPath ++ ']' :: (xpub ++ multipathTail)))
  Descriptors.tryFromLine (ScriptType.p2wpkh.wrapWith script)

/-- The fingerprint-resolution match of `impl TryFrom<ElectrumJson>`
(`descriptor.rs` lines 281-291): explicit `ckcc_xfp` (byte-swapped,
uppercase hex) before `ckcc_xpub`-derived before self-computed. -/
def electrumFingerprint (env : Env) (keystore : Keystore) (xpub : XpubS) :
    Except DescriptorError Str :=
  match keystore.ckccXfp, keystore.ckccXpub with
  | some fingerprint, _ => .ok (hex8Upper (swapBytes32 fingerprint))
  | none, some ckXpub =>
    match xpubStrToFingerprint env ckXpub with
    | .ok f => .ok (fpToStr f)
    | .error e => .error (.invalidXpub e)
  | none, none =>
    match xpubToFingerprint xpub.xpub with
    | .ok f => .ok (fpToStr f)
    | .error _ => .error .noXpubInDescriptor

/-- `impl TryFrom<ElectrumJson> for Descriptors`: infer the script type from
the derivation prefix, guard the xpub length, decode the key, resolve the
fingerprint by precedence, assemble. -/
def Descriptors.tryFromElectrum (env : Env) (json : ElectrumJson) :
    RustResult DescriptorError Descriptors :=
  let keystore := json.keystore
  let scriptType0 : Option ScriptType := none
  let scriptType1 :=
    if ("m/84".data).isPrefixOf keystore.derivation then some ScriptType.p2wpkh
    else scriptType0
  let scriptType2 :=
    if ("m/49".data).isPrefixOf keystore.derivation then some ScriptType.p2shP2wpkh
    else scriptType1
  let scriptType3 :=
    if ("m/44".data).isPrefixOf keystore.derivation then some ScriptType.p2pkh
    else scriptType2
  match scriptType3 with
  | none => .err .missingScriptType
  | some scriptType =>
    if byteLen keystore.xpub < 4 then
      .err (.invalidXpub (.tooShort (byteLen keystore.xpub)))
    else
      match xpubTryFrom env keystore.xpub with
      | .panic => .panic
      | .err e => .err (.invalidXpub e)
      | .ok xpub =>
        match electrumFingerprint env keystore xpub with
        | .error e => .err e
        | .ok fingerprint =>
          let derivationPath := replaceAll "m/".data [] keystore.derivation
          let script :=
            '[' :: (fingerprint ++ '/' :: (derivationPath
              ++ ']' :: (xpub.xpub.asString ++ multipathTail)))
          match Descriptors.tryFromLine (scriptType.wrapWith script) with
          | .ok d => .ok d
          | .error e => .err e

/-- `impl TryFrom<&str> for Descriptors`: optional JSON wrapper, then one
multipath line or exactly two verbatim lines (external first, internal
second — no branch verification on the two-line path). -/
def Descriptors.tryFromStr (env : Env) (desc : Str) :
    Except DescriptorError Descriptors :=
  let lines := ((splitOnChar '\n' (trimStr desc)).filter
    (fun line => !line.isEmpty)).map trimStr
  let isJson : Bool :=
    match lines.head? with
    | some line => (trimStr line).head? == some lbraceChar
    | none => false
  if isJson then
    match env.parseJsonDescriptor desc with
    | none => .error .invalidJsonDescriptor
    | some descriptor => Descriptors.tryFromLine descriptor
  else
    match lines with
    | [line] => Descriptors.tryFromLine line
    | [external, internal] =>
      match parseDescLine internal with
      | .error e => .error (.invalidDescriptorParse e)
      | .ok internalDesc =>
        match parseDescLine external with
        | .error e => .error (.invalidDescriptorParse e)
        | .ok externalDesc => .ok ⟨externalDesc, internalDesc⟩
    | [] => .error .missingDescriptor
    | l => .error (.tooManyKeys l.length)

/-! ## `key_expression.rs` parser -/

/-- Error enum of `key_expression.rs`. -/
inductive KeyExprError where
  | notAsciiDigits
  | invalidKeyOrigin
  | childrenIndicatorInKeyOrigin (s : Str)
  | trailingSlashInKeyOrigin
  | invalidFingerprintLength (n : Nat)
  | invalidHardenedIndicator (c : Char)
  | negativeIndices
  | privateKeyWithDerivation
  | derivationIndexOutOfRange (s : Str)
  | invalidDerivationIndex (s : Str)
  | multipleKeyOrigins (s : Str)
  | missingKeyOriginStart (s : Str)
  | nonHexFingerprint (s : Str)
  | keyOriginWithNoPublicKey (s : Str)
  | xpubParseError (e : Bip32Error)
  | derivationPathParseError (e : Bip32Error)
  | unexpectedError (s : Str)
  deriving DecidableEq, Repr

/-- Numeric value of one hex digit. -/
def hexDigitVal (c : Char) : Nat :=
  if c.isDigit then c.toNat - 48
  else if 'a' ≤ c && c ≤ 'f' then c.toNat - 87
  else if 'A' ≤ c && c ≤ 'F' then c.toNat - 55
  else 0

/-- Decode a hex string two digits at a time into bytes
(`bitcoin::bip32::Fingerprint::from_str` on an already-validated string). -/
def parseHexBytes : Str → List Nat
  | a :: b :: rest => (hexDigitVal a * 16 + hexDigitVal b) :: parseHexBytes rest
  | _ => []

/-- The hardened-indicator loop over the `/`-separated origin-path segments
(`key_expression.rs` lines 253-262): only the LAST character of each
nonempty segment is inspected; it must be an ASCII digit, `h` or an
apostrophe. -/
def checkHardenedIndicators : List Str → Except KeyExprError Unit
  | [] => .ok ()
  | seg :: rest =>
    if seg.isEmpty then checkHardenedIndicators rest
    else
      let lastChar := seg.getLast?.getD (Char.ofNat 0)
      if !lastChar.isDigit && lastChar ≠ 'h' && lastChar ≠ apoChar then
        .error (.invalidHardenedIndicator lastChar)
      else checkHardenedIndicators rest

/-- `Parser::parse_optional_fingerprint_and_path`: returns the optional
fingerprint, the optional origin path, and the remaining input after the
closing bracket. -/
def parseOptionalFingerprintAndPath (input : Str) :
    Except KeyExprError (Option (List Nat) × Option DerivationPath × Str) :=
  if !(input.head? == some '[') && input.contains ']' then
    .error (.missingKeyOriginStart input)
  else if !(input.head? == some '[') then .ok (none, none, input)
  else
    match splitFirst ']' (input.drop 1) with
    | none => .error .invalidKeyOrigin
    | some (originContent, remaining) =>
      if remaining.isEmpty then .error (.keyOriginWithNoPublicKey originContent)
      else
        let pieces :=
          match splitFirst '/' originContent with
          | some (fp, rest) => (fp, some rest)
          | none => (originContent, none)
        let fingerprintStr := pieces.1
        if fingerprintStr.length ≠ 8 then
          .error (.invalidFingerprintLength fingerprintStr.length)
        else if !fingerprintStr.all isHexDigitChar then
          .error (.nonHexFingerprint fingerprintStr)
        else
          let fingerprint := parseHexBytes (fingerprintStr.map Char.toLower)
          match pieces.2 with
          | none => .ok (some fingerprint, none, remaining)
          | some pathStr =>
            if pathStr.getLast? == some '/' then .error .trailingSlashInKeyOrigin
            else if pathStr.contains '*' then
              .error (.childrenIndicatorInKeyOrigin pathStr)
            else if pathStr.contains '-' then .error .negativeIndices
            else
              match checkHardenedIndicators (splitOnChar '/' pathStr) with
              | .error e => .error e
              | .ok _ =>
                match derivationPathFromStr ("m/".data ++ pathStr) with
                | .error e => .error (.derivationPathParseError e)
                | .ok derivationPath =>
                  .ok (some fingerprint, some derivationPath, remaining)

/-- Rust `str::contains` with a multi-character pattern. -/
def isSubstringOf (pat : Str) (l : Str) : Bool :=
  match l with
  | [] => pat.isEmpty
  | _ :: rest => pat.isPrefixOf l || isSubstringOf pat rest

/-- `Parser::parse_xpub_and_derivation`: split the remaining input at the
first slash into key text and trailing path; wildcards are rewritten to `0`
before structural parsing so range/format problems get specific errors. -/
def parseXpubAndDerivation (remaining : Str) :
    Except KeyExprError (Str × Option DerivationPath) :=
  match splitFirst '/' remaining with
  | some (xpubPart, pathPart) =>
    if pathPart.contains '-' then .error .negativeIndices
    else if pathPart.isEmpty then .error .trailingSlashInKeyOrigin
    else
      let cleanedPath := replaceAll ['*'] ['0'] (replaceAll "*h".data "0h".data pathPart)
      match derivationPathFromStr ("m/".data ++ cleanedPath) with
      | .ok derivationPath => .ok (xpubPart, some derivationPath)
      | .error e =>
        if isSubstringOf "2147483648".data pathPart
            || isSubstringOf "0x80000000".data pathPart then
          .error (.derivationIndexOutOfRange pathPart)
        else if pathPart.any
            (fun c => !c.isDigit && c ≠ '/' && c ≠ 'h' && c ≠ apoChar && c ≠ '*') then
          .error (.invalidDerivationIndex pathPart)
        else .error (.derivationPathParseError e)
  | none => .ok (remaining, none)

/-- `KeyExpression::try_from_str`: ASCII check, origin, multiple-origin
check, key and trailing path, then the external key decode. -/
def KeyExpression.tryFromStr (env : Env) (inputStr : Str) :
    Except KeyExprError KeyExpression :=
  if !inputStr.all (fun c => c.toNat < 128) then .error .notAsciiDigits
  else
    match parseOptionalFingerprintAndPath inputStr with
    | .error e => .error e
    | .ok (masterFingerprint, originPath, remaining) =>
      if remaining.contains '[' && remaining.contains ']' then
        .error (.multipleKeyOrigins remaining)
      else
        match parseXpubAndDerivation remaining with
        | .error e => .error e
        | .ok (xpubStr, derivationPath) =>
          match env.xpubFromStr xpubStr with
          | .error e => .error (.xpubParseError e)
          | .ok xpub => .ok ⟨xpub, masterFingerprint, originPath, derivationPath⟩

/-! ## `formats.rs` -/

/-- Error enum of `formats.rs` (the crate-level `Error`).  The misspelled
`JsonNoDecriptor` variant name is the source's. -/
inductive FormatsError where
  | invalidDescriptor (e : DescriptorError)
  | invalidJsonParse
  | invalidDescriptorInJson
  | jsonNoDecriptor
  | invalidXpub (e : XpubError)
  deriving DecidableEq, Repr

/-- The `Json` payload of `formats.rs`: up to three `Descriptors` keyed by
script type. -/
structure Json where
  bip44 : Option Descriptors
  bip49 : Option Descriptors
  bip84 : Option Descriptors
  deriving DecidableEq, Repr

/-- The `Format` enum of `formats.rs`. -/
inductive Format where
  | descriptor (d : Descriptors)
  | json (j : Json)
  | wasabi (d : Descriptors)
  | electrum (d : Descriptors)
  | keyExpression (d : Descriptors)
  deriving DecidableEq, Repr

/-- `impl TryFrom<GenericJson> for Json`: at least one of the three
sub-objects must be present; each present one is built via
`try_from_single_sig` with the shared `xfp`. -/
def Json.tryFromGeneric (json : GenericJson) : Except FormatsError Json :=
  if json.bip44.isNone && json.bip49.isNone && json.bip84.isNone then
    .error .jsonNoDecriptor
  else
    let build (s : Option SingleSig) : Except FormatsError (Option Descriptors) :=
      match s with
      | none => .ok none
      | some singleSig =>
        match Descriptors.tryFromSingleSig singleSig json.xfp with
        | .ok d => .ok (some d)
        | .error e => .error (.invalidDescriptor e)
    match build json.bip44 with
    | .error e => .error e
    | .ok bip44 =>
      match build json.bip49 with
      | .error e => .error e
      | .ok bip49 =>
        match build json.bip84 with
        | .error e => .error e
        | .ok bip84 =>
          if bip44.isNone && bip49.isNone && bip84.isNone then
            .error .jsonNoDecriptor
          else .ok ⟨bip44, bip49, bip84⟩

/-- `Json::try_from_child_xpub` on an already-decoded key (the overload the
cascade applies to a parsed key expression's xpub, `formats.rs` line 110):
synthesize all three script-type outputs. -/
def Json.tryFromChildXpub (xpub : Bip32Xpub) : Except FormatsError Json :=
  match Descriptors.tryFromChildXpub xpub .p2pkh with
  | .error e => .error (.invalidDescriptor e)
  | .ok bip44 =>
    match Descriptors.tryFromChildXpub xpub .p2shP2wpkh with
    | .error e => .error (.invalidDescriptor e)
    | .ok bip49 =>
      match Descriptors.tryFromChildXpub xpub .p2wpkh with
      | .error e => .error (.invalidDescriptor e)
      | .ok bip84 => .ok ⟨some bip44, some bip49, some bip84⟩

/-- `Json::try_from_child_xpub` on a string (`json.rs` lines 68-81): decode
with the external `Xpub::from_str`, then synthesize all three outputs. -/
def Json.tryFromChildXpubStr (env : Env) (string : Str) :
    Except FormatsError Json :=
  match env.xpubFromStr string with
  | .error e => .error (.invalidXpub (.invalidXpub e))
  | .ok xpub => Json.tryFromChildXpub xpub

/-- The tail of `Format::try_new_from_str` after the three JSON attempts:
descriptor text, then key expression (whose child-xpub fallback error
propagates via `?`), then the bare extended-key fallback. -/
def Format.afterJsonAttempts (env : Env) (string : Str) :
    RustResult FormatsError Format :=
  match Descriptors.tryFromStr env string with
  | .ok desc => .ok (.descriptor desc)
  | .error _ =>
    match KeyExpression.tryFromStr env string with
    | .ok ke =>
      match Descriptors.tryFromKeyExpression ke with
      | .ok desc => .ok (.keyExpression desc)
      | .error _ =>
        match Json.tryFromChildXpub ke.xpub with
        | .ok js => .ok (.json js)
        | .error e => .err e
    | .error _ =>
      match Json.tryFromChildXpubStr env string with
      | .ok js => .ok (.json js)
      | .error e => .err e

/-- `Format::try_new_from_str`: the ordered format-detection cascade. -/
def Format.tryNewFromStr (env : Env) (string : Str) :
    RustResult FormatsError Format :=
  let genericResult : Option Json :=
    match env.parseGenericJson string with
    | some gj =>
      match Json.tryFromGeneric gj with
      | .ok j => some j
      | .error _ => none
    | none => none
  match genericResult with
  | some j => .ok (.json j)
  | none =>
    let wasabiResult : Option Descriptors :=
      match env.parseWasabiJson string with
      | some wj =>
        match Descriptors.tryFromWasabi wj with
        | .ok d => some d
        | .error _ => none
      | none => none
    match wasabiResult with
    | some d => .ok (.wasabi d)
    | none =>
      match env.parseElectrumJson string with
      | some ej =>
        match Descriptors.tryFromElectrum env ej with
        | .ok d => .ok (.electrum d)
        | .panic => .panic
        | .err _ => Format.afterJsonAttempts env string
      | none => Format.afterJsonAttempts env string

/-! ## Concrete test environment for witnesses

A small instantiation of the external primitives: three known extended keys
(a depth-1 child, a depth-0 master, and a depth-3 key with a zeroed parent
fingerprint), and a base58Check decoder with known payloads. -/

/-- A depth-1 child key with a nonzero stored parent fingerprint. -/
def childKeyA : Bip32Xpub := ⟨1, [1, 2, 3, 4], [5, 6, 7, 8], "childkeyA".data⟩

/-- A depth-0 master key. -/
def masterKeyB : Bip32Xpub := ⟨0, [0, 0, 0, 0], [9, 9, 9, 9], "masterkeyB".data⟩

/-- A depth-3 key whose stored parent fingerprint is all-zero. -/
def zeroParentC : Bip32Xpub :=
  ⟨3, [0, 0, 0, 0], [222, 173, 190, 239], "zeroparentC".data⟩

/-- A zero-parent key whose text form carries the `xpub` prefix. -/
def xpubKeyD : Bip32Xpub :=
  ⟨3, [0, 0, 0, 0], [222, 173, 190, 239], "xpubZeroC".data⟩

/-- Concrete environment used by the witnesses. -/
def testEnv : Env where
  decodeCheck := fun s =>
    if s = "ypubShort".data then .ok (List.replicate 77 7)
    else if s = "zpubShort".data then .ok (List.replicate 77 9)
    else if s = "zpubGoodX".data then .ok (List.replicate 78 9)
    else .error ⟨0⟩
  encodeCheck := fun bytes => "enc".data ++ natDigits bytes.length
  xpubFromStr := fun s =>
    if s = "childkeyA".data then .ok childKeyA
    else if s = "masterkeyB".data then .ok masterKeyB
    else if s = "zeroparentC".data then .ok zeroParentC
    else if s = "xpubZeroC".data then .ok xpubKeyD
    else .error (.other 1)
  parseGenericJson := fun _ => none
  parseWasabiJson := fun _ => none
  parseElectrumJson := fun _ => none
  parseJsonDescriptor := fun _ => none

/-! ## Claim C1 -/

/-- C1: the claim states that for every `ScriptType` the prefix returned by
`descriptor_derivation_path` is the canonical 3-segment hardened prefix and
that `try_from_derivation_path` maps it back to the script type.  This
HOLDS for `P2pkh` and `P2wpkh` but FAILS for `P2shP2wpkh`: the source
returns the 2-segment prefix `49'/0'` (6 characters, not the canonical
9-character `49'/0'/0'`), and feeding it back yields `InvalidPath`. -/
theorem c1_script_type_prefix_roundtrip_bug :
    derivationPathFromStr (ScriptType.descriptorDerivationPath .p2pkh)
        = .ok [HARDENED_44, hardenedFlag, hardenedFlag]
      ∧ ScriptType.tryFromDerivationPath [HARDENED_44, hardenedFlag, hardenedFlag]
        = .ok .p2pkh
      ∧ derivationPathFromStr (ScriptType.descriptorDerivationPath .p2wpkh)
        = .ok [HARDENED_84, hardenedFlag, hardenedFlag]
      ∧ ScriptType.tryFromDerivationPath [HARDENED_84, hardenedFlag, hardenedFlag]
        = .ok .p2wpkh
      ∧ derivationPathFromStr (ScriptType.descriptorDerivationPath .p2shP2wpkh)
        = .ok [HARDENED_49, hardenedFlag]
      ∧ ScriptType.tryFromDerivationPath [HARDENED_49, hardenedFlag]
        = .error (.invalidPath [HARDENED_49, hardenedFlag])
      ∧ (ScriptType.descriptorDerivationPath .p2shP2wpkh).length = 6 := by
  decide

/-! ## Claim C6 -/

/-- C6: `xpub_to_fingerprint` never fails; it returns the key's own
computed fingerprint exactly when the stored parent fingerprint is the
all-zero 4-byte value, and the stored parent fingerprint otherwise. -/
theorem c6_fingerprint_zero_parent_rule :
    ∀ x : Bip32Xpub,
      xpubToFingerprint x =
        .ok (if x.parentFingerprint = [0, 0, 0, 0] then x.ownFingerprint
             else x.parentFingerprint) := by
  intro x
  by_cases h : x.parentFingerprint = [0, 0, 0, 0]
  · simp only [xpubToFingerprint, h, if_pos]
  · rw [if_neg h]
    unfold xpubToFingerprint
    split
    · simp_all
    · rfl

/-! ## Claim C7 -/

/-- C7: when the base58Check decode succeeds, the ypub path fails with
`InvalidYpubLength` carrying the actual decoded length unless it is exactly
78, while the zpub path performs no such length re-validation (it panics
instead); on 78-byte payloads both succeed and re-encode the payload with
its first four bytes overwritten by the canonical xpub version bytes. -/
theorem c7_ypub_length_validation (env : Env) (s : Str) (bytes : List Nat)
    (h : env.decodeCheck s = .ok bytes) :
    (bytes.length ≠ 78 →
      ypubToXpub env s = .err (.invalidYpubLength bytes.length)
        ∧ zpubToXpub env s = .panic)
    ∧ (bytes.length = 78 →
      ypubToXpub env s = .ok (env.encodeCheck (xpubVersionBytes ++ bytes.drop 4))
        ∧ zpubToXpub env s = .ok (env.encodeCheck (xpubVersionBytes ++ bytes.drop 4))) := by
  unfold ypubToXpub zpubToXpub
  rw [h]
  constructor
  · intro hlen
    simp [hlen]
  · intro hlen
    simp [hlen]

/-- Witness for C7 at a concrete input: a ypub whose payload decodes to 77
bytes is rejected with `InvalidYpubLength 77`. -/
theorem c7_witness :
    testEnv.decodeCheck "ypubShort".data = .ok (List.replicate 77 7)
      ∧ (((List.replicate 77 (7 : Nat)).length ≠ 78 →
          ypubToXpub testEnv "ypubShort".data
              = .err (.invalidYpubLength (List.replicate 77 (7 : Nat)).length)
            ∧ zpubToXpub testEnv "ypubShort".data = .panic)
        ∧ ((List.replicate 77 (7 : Nat)).length = 78 →
          ypubToXpub testEnv "ypubShort".data
              = .ok (testEnv.encodeCheck (xpubVersionBytes ++ (List.replicate 77 (7 : Nat)).drop 4))
            ∧ zpubToXpub testEnv "ypubShort".data
              = .ok (testEnv.encodeCheck (xpubVersionBytes ++ (List.replicate 77 (7 : Nat)).drop 4)))) :=
  ⟨by decide, c7_ypub_length_validation testEnv "ypubShort".data
    (List.replicate 77 7) (by decide)⟩

/-! ## Claim C10 -/

/-- C10: on the zpub path a successfully decoded payload of any length
other than 78 bytes reaches the fixed-size copy's panic branch rather than
an error; consequently a successful return implies the payload had exactly
78 bytes. -/
theorem c10_zpub_success_needs_78_bytes (env : Env) (s : Str)
    (bytes : List Nat) (h : env.decodeCheck s = .ok bytes) :
    (bytes.length ≠ 78 → zpubToXpub env s = .panic)
    ∧ (∀ r, zpubToXpub env s = .ok r → bytes.length = 78) := by
  unfold zpubToXpub
  rw [h]
  constructor
  · intro hlen
    simp [hlen]
  · intro r
    by_cases hlen : bytes.length = 78
    · intro _
      exact hlen
    · simp [hlen]

/-- Witness for C10 at a concrete input: a zpub decoding to 77 bytes
panics, and cannot return successfully. -/
theorem c10_witness :
    testEnv.decodeCheck "zpubShort".data = .ok (List.replicate 77 9)
      ∧ (((List.replicate 77 (9 : Nat)).length ≠ 78 →
            zpubToXpub testEnv "zpubShort".data = .panic)
          ∧ (∀ r, zpubToXpub testEnv "zpubShort".data = .ok r →
            (List.replicate 77 (9 : Nat)).length = 78)) :=
  ⟨by decide, c10_zpub_success_needs_78_bytes testEnv "zpubShort".data
    (List.replicate 77 9) (by decide)⟩

/-! ## Claim C9 -/

/-- Auxiliary: taking more bytes than the whole string holds yields the
out-of-bounds branch. -/
theorem takeBytesBoundary_eq_none (l : Str) :
    ∀ rem, 0 < rem → byteLen l < rem → takeBytesBoundary l rem = none := by
  induction l with
  | nil =>
    intro rem h0 _
    unfold takeBytesBoundary
    rw [if_neg (by omega)]
  | cons c rest ih =>
    intro rem h0 hlt
    have hb : byteLen (c :: rest) = c.utf8Size + byteLen rest := by
      simp [byteLen]
    unfold takeBytesBoundary
    rw [if_neg (by omega)]
    have hsize : c.utf8Size ≤ rem := by omega
    dsimp only
    rw [if_pos hsize, ih (rem - c.utf8Size) (by omega) (by omega)]
    rfl

/-- C9 counterexample: the claim quantifies over strings shorter than four
CHARACTERS, but the Rust slice `&xpub[..4]` counts BYTES.  The three-
character string of three two-byte characters is sliced successfully at
byte 4 and `Xpub::try_from` returns the error `NotXpub` — an error value,
contradicting the claim that no error is returned. -/
theorem c9_counterexample :
    ("ééé".data).length < 4
      ∧ xpubTryFrom testEnv "ééé".data = .err (.notXpub "éé".data) := by
  constructor
  · decide
  · rfl

/-- C9 amended: for every input whose UTF-8 BYTE length is below four, the
slice `&xpub[..4]` is out of bounds, so `Xpub::try_from` reaches the panic
branch and returns no error value; and the Electrum path alone guards the
call with a byte-length check, failing with an ordinary error instead. -/
theorem c9_short_input_panics (env : Env) (s : Str) (j : ElectrumJson)
    (hbytes : byteLen s < 4) :
    xpubTryFrom env s = .panic
    ∧ (byteLen j.keystore.xpub < 4 →
        ∃ e, Descriptors.tryFromElectrum env j = .err e) := by
  constructor
  · unfold xpubTryFrom prefix4Bytes
    rw [takeBytesBoundary_eq_none s 4 (by omega) hbytes]
  · intro h4
    unfold Descriptors.tryFromElectrum
    dsimp only
    split
    · exact ⟨_, rfl⟩
    · rw [if_pos h4]
      exact ⟨_, rfl⟩

/-- Witness for C9 amended: a two-byte input panics, and an Electrum
keystore carrying that input as its xpub fails with an error value. -/
theorem c9_witness :
    byteLen "ab".data < 4
      ∧ (xpubTryFrom testEnv "ab".data = .panic
        ∧ (byteLen (ElectrumJson.mk 17 false "standard".data
              ⟨"m/84h/0h/0h".data, "ab".data, none, none⟩).keystore.xpub < 4 →
            ∃ e, Descriptors.tryFromElectrum testEnv
              (ElectrumJson.mk 17 false "standard".data
                ⟨"m/84h/0h/0h".data, "ab".data, none, none⟩) = .err e)) :=
  ⟨by decide, c9_short_input_panics testEnv "ab".data
    (ElectrumJson.mk 17 false "standard".data
      ⟨"m/84h/0h/0h".data, "ab".data, none, none⟩) (by decide)⟩

/-! ## Claim C8 -/

/-- C8: a depth-0 (master) extended key is rejected by
`Descriptors::try_from_child_xpub` with `MasterXpub` before any assembly,
so the bare-extended-key fallback `Json::try_from_child_xpub` never
synthesizes the three script-type outputs for a master key. -/
theorem c8_master_key_rejected (env : Env) (x : Bip32Xpub) (st : ScriptType)
    (s : Str) (hdepth : x.depth = 0) :
    Descriptors.tryFromChildXpub x st = .error .masterXpub
    ∧ Json.tryFromChildXpub x = .error (.invalidDescriptor .masterXpub)
    ∧ (env.xpubFromStr s = .ok x →
        Json.tryFromChildXpubStr env s = .error (.invalidDescriptor .masterXpub)) := by
  have hchild : ∀ t : ScriptType,
      Descriptors.tryFromChildXpub x t = .error .masterXpub := by
    intro t
    unfold Descriptors.tryFromChildXpub
    rw [if_pos hdepth]
  have hjson : Json.tryFromChildXpub x = .error (.invalidDescriptor .masterXpub) := by
    unfold Json.tryFromChildXpub
    rw [hchild .p2pkh]
  refine ⟨hchild st, hjson, ?_⟩
  intro hx
  unfold Json.tryFromChildXpubStr
  rw [hx]
  dsimp only
  exact hjson

/-- Witness for C8: the concrete depth-0 key is rejected, also through the
string fallback. -/
theorem c8_witness :
    masterKeyB.depth = 0
      ∧ (Descriptors.tryFromChildXpub masterKeyB .p2wpkh = .error .masterXpub
        ∧ Json.tryFromChildXpub masterKeyB = .error (.invalidDescriptor .masterXpub)
        ∧ (testEnv.xpubFromStr "masterkeyB".data = .ok masterKeyB →
            Json.tryFromChildXpubStr testEnv "masterkeyB".data
              = .error (.invalidDescriptor .masterXpub))) :=
  ⟨by decide, c8_master_key_rejected testEnv masterKeyB .p2wpkh
    "masterkeyB".data (by decide)⟩

/-! ## Generic facts about the scanning primitives -/

/-- Splitting at the first `c` of `xs ++ c :: ys` when `c` does not occur
in `xs` cuts exactly at the marked occurrence. -/
theorem splitFirst_append_cons (c : Char) (xs ys : Str) (hx : c ∉ xs) :
    splitFirst c (xs ++ c :: ys) = some (xs, ys) := by
  induction xs with
  | nil => simp [splitFirst]
  | cons a rest ih =>
    have ha : ¬(a = c) := fun h => hx (h ▸ List.mem_cons_self a rest)
    simp only [List.cons_append, splitFirst, if_neg ha, List.append_eq]
    rw [ih (fun h => hx (List.mem_cons_of_mem a h))]
    rfl

/-- A chunk free of the separator is returned whole by `splitOnChar`. -/
theorem splitOnChar_eq_single (c : Char) (xs : Str) (hx : c ∉ xs) :
    splitOnChar c xs = [xs] := by
  induction xs with
  | nil => rfl
  | cons a rest ih =>
    have ha : ¬(a = c) := fun h => hx (h ▸ List.mem_cons_self a rest)
    simp only [splitOnChar, if_neg ha]
    rw [ih (fun h => hx (List.mem_cons_of_mem a h))]

/-- Splitting on every `c` peels off a separator-free chunk at the front. -/
theorem splitOnChar_append_cons (c : Char) (xs ys : Str) (hx : c ∉ xs) :
    splitOnChar c (xs ++ c :: ys) = xs :: splitOnChar c ys := by
  induction xs with
  | nil => simp [splitOnChar]
  | cons a rest ih =>
    have ha : ¬(a = c) := fun h => hx (h ▸ List.mem_cons_self a rest)
    simp only [List.cons_append, splitOnChar, if_neg ha, List.append_eq]
    rw [ih (fun h => hx (List.mem_cons_of_mem a h))]

/-! ## Claim C4 -/

/-- The condition under which the hardened-indicator loop of
`parse_optional_fingerprint_and_path` rejects a segment: its last character
is neither an ASCII digit nor `h` nor an apostrophe. -/
def badLastChar (seg : Str) : Prop :=
  ¬((seg.getLast?.getD (Char.ofNat 0)).isDigit = true
    ∨ seg.getLast?.getD (Char.ofNat 0) = 'h'
    ∨ seg.getLast?.getD (Char.ofNat 0) = apoChar)

/-- The bad-last-character condition is decidable, so witnesses can be
checked by evaluation. -/
instance (seg : Str) : Decidable (badLastChar seg) := by
  unfold badLastChar
  infer_instance

/-- Bridge between `badLastChar` and the Boolean test in the source's
hardened-indicator loop. -/
theorem badLastChar_iff (seg : Str) :
    badLastChar seg ↔
      (!(seg.getLast?.getD (Char.ofNat 0)).isDigit
        && seg.getLast?.getD (Char.ofNat 0) ≠ 'h'
        && seg.getLast?.getD (Char.ofNat 0) ≠ apoChar) = true := by
  unfold badLastChar
  simp only [Bool.and_eq_true, Bool.not_eq_true', decide_eq_true_eq]
  constructor
  · intro h
    refine ⟨⟨?_, ?_⟩, ?_⟩ <;>
      first
        | exact Bool.eq_false_iff.mpr (fun hh => h (Or.inl hh))
        | exact fun hh => h (Or.inr (Or.inl hh))
        | exact fun hh => h (Or.inr (Or.inr hh))
  · rintro ⟨⟨h1, h2⟩, h3⟩ (hh | hh | hh)
    · rw [h1] at hh
      exact Bool.false_ne_true hh
    · exact h2 hh
    · exact h3 hh

/-- If some nonempty segment has a bad last character, the hardened-
indicator loop fails with `InvalidHardenedIndicator`. -/
theorem checkHardenedIndicators_err (segs : List Str)
    (h : ∃ seg ∈ segs, seg ≠ [] ∧ badLastChar seg) :
    ∃ c, checkHardenedIndicators segs = .error (.invalidHardenedIndicator c) := by
  induction segs with
  | nil => simp at h
  | cons s rest ih =>
    rcases h with ⟨seg, hmem, hne, hbad⟩
    by_cases hsEmpty : s.isEmpty = true
    · have hseg : seg ∈ rest := by
        rcases List.mem_cons.mp hmem with hs | hrest
        · subst hs
          cases seg with
          | nil => exact absurd rfl hne
          | cons _ _ => simp [List.isEmpty] at hsEmpty
        · exact hrest
      rcases ih ⟨seg, hseg, hne, hbad⟩ with ⟨c, hc⟩
      refine ⟨c, ?_⟩
      unfold checkHardenedIndicators
      rw [if_pos hsEmpty]
      exact hc
    · by_cases hbadS :
        (!(s.getLast?.getD (Char.ofNat 0)).isDigit
          && s.getLast?.getD (Char.ofNat 0) ≠ 'h'
          && s.getLast?.getD (Char.ofNat 0) ≠ apoChar) = true
      · refine ⟨s.getLast?.getD (Char.ofNat 0), ?_⟩
        unfold checkHardenedIndicators
        rw [if_neg hsEmpty]
        dsimp only
        rw [if_pos hbadS]
      · have hseg : seg ∈ rest := by
          rcases List.mem_cons.mp hmem with hs | hrest
          · subst hs
            exact absurd ((badLastChar_iff seg).mp hbad) hbadS
          · exact hrest
        rcases ih ⟨seg, hseg, hne, hbad⟩ with ⟨c, hc⟩
        refine ⟨c, ?_⟩
        unfold checkHardenedIndicators
        rw [if_neg hsEmpty]
        dsimp only
        rw [if_neg hbadS]
        exact hc

/-- Origin-path validation with a bad segment: when the input carries a
bracketed origin `[fp/path]` with a well-formed fingerprint and the path
passes the trailing-slash, wildcard and dash checks but contains a nonempty
segment whose LAST character is not a digit, `h` or an apostrophe, the
origin parser fails with `InvalidHardenedIndicator`. -/
theorem parseOptFpPath_badSegment (fp path rest : Str)
    (hfplen : fp.length = 8)
    (hfphex : fp.all isHexDigitChar = true)
    (hrestNe : rest ≠ [])
    (hpathNoBracket : (']' : Char) ∉ path)
    (hpathNoStar : path.contains '*' = false)
    (hpathNoDash : path.contains '-' = false)
    (hpathNoTrail : (path.getLast? == some '/') = false)
    (hbad : ∃ seg ∈ splitOnChar '/' path, seg ≠ [] ∧ badLastChar seg) :
    ∃ c, parseOptionalFingerprintAndPath ('[' :: fp ++ '/' :: path ++ ']' :: rest)
      = .error (.invalidHardenedIndicator c) := by
  have hfpNoBracket : (']' : Char) ∉ fp := fun hmem =>
    absurd (List.all_eq_true.mp hfphex _ hmem) (by decide)
  have hfpNoSlash : ('/' : Char) ∉ fp := fun hmem =>
    absurd (List.all_eq_true.mp hfphex _ hmem) (by decide)
  have hsplitBr : splitFirst ']' (fp ++ '/' :: path ++ ']' :: rest)
      = some (fp ++ '/' :: path, rest) := by
    have hnm : (']' : Char) ∉ fp ++ '/' :: path := by
      simp only [List.mem_append, List.mem_cons]
      rintro (h | h | h)
      · exact hfpNoBracket h
      · exact absurd h (by decide)
      · exact hpathNoBracket h
    have h := splitFirst_append_cons ']' (fp ++ '/' :: path) rest hnm
    simpa [List.append_assoc] using h
  have hsplitSl : splitFirst '/' (fp ++ '/' :: path) = some (fp, path) :=
    splitFirst_append_cons '/' fp path hfpNoSlash
  have hrestEmpty : rest.isEmpty = false := by
    cases rest with
    | nil => exact absurd rfl hrestNe
    | cons _ _ => rfl
  rcases checkHardenedIndicators_err _ hbad with ⟨c, hc⟩
  refine ⟨c, ?_⟩
  unfold parseOptionalFingerprintAndPath
  have hcond1 : (!(('[' :: fp ++ '/' :: path ++ ']' :: rest).head? == some '[')
      && ('[' :: fp ++ '/' :: path ++ ']' :: rest).contains ']') = false := by
    simp
  have hcond2 :
      (!(('[' :: fp ++ '/' :: path ++ ']' :: rest).head? == some '[')) = false := by
    simp
  rw [hcond1, if_neg Bool.false_ne_true, hcond2, if_neg Bool.false_ne_true]
  rw [show List.drop 1 ('[' :: fp ++ '/' :: path ++ ']' :: rest)
    = fp ++ '/' :: path ++ ']' :: rest from rfl]
  rw [hsplitBr]
  dsimp only
  rw [hrestEmpty, if_neg Bool.false_ne_true, hsplitSl]
  dsimp only
  rw [hfplen, if_neg (by omega : ¬(8 ≠ 8)), hfphex, Bool.not_true,
    if_neg Bool.false_ne_true]
  rw [hpathNoTrail, if_neg Bool.false_ne_true, hpathNoStar,
    if_neg Bool.false_ne_true, hpathNoDash, if_neg Bool.false_ne_true, hc]

/-- C4 amended: parsing a key expression whose origin path holds a nonempty
segment with an invalid LAST character fails with
`InvalidHardenedIndicator`; the source checks only the last character of
each segment, not that the segment is purely numeric. -/
theorem c4_last_char_drives_hardened_error (env : Env) (fp path rest : Str)
    (hfplen : fp.length = 8)
    (hfphex : fp.all isHexDigitChar = true)
    (hascii : ∀ c ∈ '[' :: fp ++ '/' :: path ++ ']' :: rest, c.toNat < 128)
    (hrestNe : rest ≠ [])
    (hpathNoBracket : (']' : Char) ∉ path)
    (hpathNoStar : path.contains '*' = false)
    (hpathNoDash : path.contains '-' = false)
    (hpathNoTrail : (path.getLast? == some '/') = false)
    (hbad : ∃ seg ∈ splitOnChar '/' path, seg ≠ [] ∧ badLastChar seg) :
    ∃ c, KeyExpression.tryFromStr env ('[' :: fp ++ '/' :: path ++ ']' :: rest)
      = .error (.invalidHardenedIndicator c) := by
  rcases parseOptFpPath_badSegment fp path rest hfplen hfphex hrestNe
    hpathNoBracket hpathNoStar hpathNoDash hpathNoTrail hbad with ⟨c, hc⟩
  refine ⟨c, ?_⟩
  have hallAscii : (('[' :: fp ++ '/' :: path ++ ']' :: rest).all
      fun c => decide (c.toNat < 128)) = true :=
    List.all_eq_true.mpr (fun c hcm => decide_eq_true (hascii c hcm))
  unfold KeyExpression.tryFromStr
  simp only [hallAscii, Bool.not_true, Bool.false_eq_true, if_false, hc]

/-- C4 counterexample: the claim says a segment such as `1a2`, whose last
character is a digit but which is not purely numeric, yields
`InvalidHardenedIndicator`.  It does not: the last-character check passes
and the structural path parse later fails, so the error is
`DerivationPathParseError`, never `InvalidHardenedIndicator`. -/
theorem c4_counterexample :
    KeyExpression.tryFromStr testEnv "[deadbeef/1a2]k".data
        = .error (.derivationPathParseError .invalidChildNumberFormat)
      ∧ ∀ c, KeyExpression.tryFromStr testEnv "[deadbeef/1a2]k".data
        ≠ .error (.invalidHardenedIndicator c) := by
  have h1 : KeyExpression.tryFromStr testEnv "[deadbeef/1a2]k".data
      = .error (.derivationPathParseError .invalidChildNumberFormat) := by decide
  refine ⟨h1, fun c h => ?_⟩
  rw [h1] at h
  simp at h

/-- Witness for C4 amended: the origin path `3x/2` has the nonempty segment
`3x` whose last character `x` is invalid, and parsing fails with
`InvalidHardenedIndicator`. -/
theorem c4_witness :
    ("deadbeef".data.length = 8
      ∧ "deadbeef".data.all isHexDigitChar = true
      ∧ (∀ c ∈ '[' :: "deadbeef".data ++ '/' :: "3x/2".data ++ ']' :: "k".data,
          c.toNat < 128)
      ∧ "k".data ≠ []
      ∧ (']' : Char) ∉ "3x/2".data
      ∧ "3x/2".data.contains '*' = false
      ∧ "3x/2".data.contains '-' = false
      ∧ ("3x/2".data.getLast? == some '/') = false
      ∧ (∃ seg ∈ splitOnChar '/' "3x/2".data, seg ≠ [] ∧ badLastChar seg))
    ∧ (∃ c, KeyExpression.tryFromStr testEnv
        ('[' :: "deadbeef".data ++ '/' :: "3x/2".data ++ ']' :: "k".data)
        = .error (.invalidHardenedIndicator c)) :=
  ⟨⟨by decide, by decide, by decide, by decide, by decide, by decide,
      by decide, by decide, by decide⟩,
    c4_last_char_drives_hardened_error testEnv "deadbeef".data "3x/2".data
      "k".data (by decide) (by decide) (by decide) (by decide) (by decide)
      (by decide) (by decide) (by decide) (by decide)⟩

/-! ## Correctness of the modelled descriptor parser on crate-built lines -/

/-- `splitFirst` finds nothing in a list free of the separator. -/
theorem splitFirst_eq_none (c : Char) (l : Str) (h : c ∉ l) :
    splitFirst c l = none := by
  induction l with
  | nil => rfl
  | cons a rest ih =>
    have ha : ¬(a = c) := fun hh => h (hh ▸ List.mem_cons_self a rest)
    simp only [splitFirst, if_neg ha]
    rw [ih (fun hh => h (List.mem_cons_of_mem a hh))]
    rfl

/-- A list is a Boolean prefix of itself followed by anything. -/
theorem isPrefixOf_append_self (xs ys : Str) :
    xs.isPrefixOf (xs ++ ys) = true := by
  induction xs with
  | nil =>
    cases ys <;> rfl
  | cons a rest ih =>
    show ((a == a) && rest.isPrefixOf (rest ++ ys)) = true
    rw [ih]
    simp

/-- A Boolean prefix check fails when the heads differ. -/
theorem isPrefixOf_ne_head (a b : Char) (l₁ l₂ : Str) (h : (a == b) = false) :
    (a :: l₁).isPrefixOf (b :: l₂) = false := by
  show ((a == b) && l₁.isPrefixOf l₂) = false
  rw [h, Bool.false_and]

/-- Stripping a suffix that is literally appended returns the front part. -/
theorem stripSuffixN_append (suf xs : Str) :
    stripSuffixN suf (xs ++ suf) = some xs := by
  unfold stripSuffixN
  have hsuf : suf.isSuffixOf (xs ++ suf) = true := by
    show (suf.reverse.isPrefixOf (xs ++ suf).reverse) = true
    rw [List.reverse_append]
    exact isPrefixOf_append_self suf.reverse xs.reverse
  rw [if_pos hsuf]
  have hlen : (xs ++ suf).length - suf.length = xs.length := by
    rw [List.length_append]
    omega
  rw [hlen, List.take_left]

/-- `stripChecksum` is the identity on hash-free text. -/
theorem stripChecksum_of_not_mem (l : Str) (h : ('#' : Char) ∉ l) :
    stripChecksum l = l := by
  unfold stripChecksum
  rw [splitFirst_eq_none '#' l h]

/-- The modelled template recognizer inverts `ScriptType::wrap_with`. -/
theorem stripTemplate_wrapWith (st : ScriptType) (inner : Str) :
    stripTemplate (st.wrapWith inner) = .ok (st, inner) := by
  cases st with
  | p2pkh =>
    show stripTemplate ("pkh(".data ++ inner ++ ")".data) = .ok (.p2pkh, inner)
    unfold stripTemplate
    rw [show "pkh(".data ++ inner ++ ")".data
      = 'p' :: ("kh(".data ++ (inner ++ ")".data)) from by simp,
      isPrefixOf_ne_head 's' 'p' _ _ (by decide)]
    simp only [Bool.false_eq_true, if_false]
    rw [show 'p' :: ("kh(".data ++ (inner ++ ")".data))
      = "pkh(".data ++ (inner ++ ")".data) from by simp]
    rw [isPrefixOf_append_self]
    simp only [if_true]
    rw [show ("pkh(".data ++ (inner ++ ")".data)).drop 4
      = ("pkh(".data ++ (inner ++ ")".data)).drop ("pkh(".data).length from rfl,
      List.drop_left, stripSuffixN_append ")".data inner]
  | p2shP2wpkh =>
    show stripTemplate ("sh(wpkh(".data ++ inner ++ "))".data) = .ok (.p2shP2wpkh, inner)
    unfold stripTemplate
    rw [show "sh(wpkh(".data ++ inner ++ "))".data
      = "sh(wpkh(".data ++ (inner ++ "))".data) from by simp]
    rw [isPrefixOf_append_self]
    simp only [if_true]
    rw [show ("sh(wpkh(".data ++ (inner ++ "))".data)).drop 8
      = ("sh(wpkh(".data ++ (inner ++ "))".data)).drop ("sh(wpkh(".data).length from rfl,
      List.drop_left, stripSuffixN_append "))".data inner]
  | p2wpkh =>
    show stripTemplate ("wpkh(".data ++ inner ++ ")".data) = .ok (.p2wpkh, inner)
    unfold stripTemplate
    rw [show "wpkh(".data ++ inner ++ ")".data
      = 'w' :: ("pkh(".data ++ (inner ++ ")".data)) from by simp,
      isPrefixOf_ne_head 's' 'w' _ _ (by decide),
      isPrefixOf_ne_head 'p' 'w' _ _ (by decide)]
    simp only [Bool.false_eq_true, if_false]
    rw [show 'w' :: ("pkh(".data ++ (inner ++ ")".data))
      = "wpkh(".data ++ (inner ++ ")".data) from by simp]
    rw [isPrefixOf_append_self]
    simp only [if_true]
    rw [show ("wpkh(".data ++ (inner ++ ")".data)).drop 5
      = ("wpkh(".data ++ (inner ++ ")".data)).drop ("wpkh(".data).length from rfl,
      List.drop_left, stripSuffixN_append ")".data inner]

/-- The modelled origin parser on a crate-built origin: an 8-hex-digit
fingerprint and a parseable path are recovered (the fingerprint lowercased,
the path structured). -/
theorem parseOrigin_built (fp pathLit after : Str) (pathRes : DerivationPath)
    (hfplen : fp.length = 8)
    (hfphex : fp.all isHexDigitChar = true)
    (hpath : derivationPathFromStr pathLit = .ok pathRes)
    (hpathNoBr : (']' : Char) ∉ pathLit) :
    parseOrigin ('[' :: (fp ++ '/' :: (pathLit ++ ']' :: after)))
      = .ok (some (fp.map Char.toLower, pathRes), after) := by
  have hfpNoBr : (']' : Char) ∉ fp := fun hm =>
    absurd (List.all_eq_true.mp hfphex _ hm) (by decide)
  have hfpNoSl : ('/' : Char) ∉ fp := fun hm =>
    absurd (List.all_eq_true.mp hfphex _ hm) (by decide)
  have hsplitBr : splitFirst ']' (fp ++ '/' :: (pathLit ++ ']' :: after))
      = some (fp ++ '/' :: pathLit, after) := by
    have hnm : (']' : Char) ∉ fp ++ '/' :: pathLit := by
      simp only [List.mem_append, List.mem_cons]
      rintro (h | h | h)
      · exact hfpNoBr h
      · exact absurd h (by decide)
      · exact hpathNoBr h
    rw [show fp ++ '/' :: (pathLit ++ ']' :: after)
      = (fp ++ '/' :: pathLit) ++ ']' :: after from by simp]
    exact splitFirst_append_cons ']' (fp ++ '/' :: pathLit) after hnm
  have hcheck : (fp.length == 8 && fp.all isHexDigitChar) = true := by
    rw [hfplen, hfphex]
    rfl
  unfold parseOrigin
  dsimp only
  rw [if_pos rfl, hsplitBr]
  dsimp only
  rw [splitFirst_append_cons '/' fp pathLit hfpNoSl]
  dsimp only
  rw [if_pos hcheck, hpath]

/-- The modelled key-and-steps parser on a crate-built tail: the key text
followed by the multipath marker and the wildcard. -/
theorem parseKeySteps_built (key : Str) (hkeyNe : key ≠ [])
    (hkeyAl : key.all Char.isAlphanum = true) :
    parseKeySteps (key ++ multipathTail) = .ok (key, [.multi [0, 1], .star]) := by
  have hkeySl : ('/' : Char) ∉ key := fun hm =>
    absurd (List.all_eq_true.mp hkeyAl _ hm) (by decide)
  have hsplit : splitOnChar '/' (key ++ multipathTail)
      = key :: splitOnChar '/' "<0;1>/*".data := by
    rw [show multipathTail = '/' :: "<0;1>/*".data from rfl]
    exact splitOnChar_append_cons '/' key "<0;1>/*".data hkeySl
  have hcond : (key.isEmpty || !key.all Char.isAlphanum) = false := by
    cases key with
    | nil => exact absurd rfl hkeyNe
    | cons a r =>
      rw [hkeyAl]
      rfl
  have hsteps : (splitOnChar '/' "<0;1>/*".data).mapM parseStep
      = Except.ok [Step.multi [0, 1], Step.star] := by decide
  unfold parseKeySteps
  rw [hsplit]
  dsimp only
  rw [hcond]
  simp only [Bool.false_eq_true, if_false]
  rw [hsteps]
  rfl

/-- Non-membership distributes over append. -/
theorem not_mem_append_of {a : Char} {xs ys : Str} (hx : a ∉ xs) (hy : a ∉ ys) :
    a ∉ xs ++ ys := fun hm => (List.mem_append.mp hm).elim hx hy

/-- Non-membership extends over cons. -/
theorem not_mem_cons_of {a b : Char} {l : Str} (hab : a ≠ b) (hl : a ∉ l) :
    a ∉ b :: l := fun hm => (List.mem_cons.mp hm).elim hab hl

/-- The modelled descriptor parser on a line built the way the crate builds
every assembled descriptor: template-wrapped `[fp/path]key/<0;1>/*`. -/
theorem parseDescLine_built (st : ScriptType) (fp pathLit key : Str)
    (pathRes : DerivationPath)
    (hfplen : fp.length = 8)
    (hfphex : fp.all isHexDigitChar = true)
    (hpath : derivationPathFromStr pathLit = .ok pathRes)
    (hpathNoBr : (']' : Char) ∉ pathLit)
    (hpathNoHash : ('#' : Char) ∉ pathLit)
    (hkeyNe : key ≠ [])
    (hkeyAl : key.all Char.isAlphanum = true) :
    parseDescLine
        (st.wrapWith
          ('[' :: (fp ++ '/' :: (pathLit ++ ']' :: (key ++ multipathTail)))))
      = .ok ⟨st, some (fp.map Char.toLower, pathRes), key, [.multi [0, 1], .star]⟩ := by
  have hfpNoHash : ('#' : Char) ∉ fp := fun hm =>
    absurd (List.all_eq_true.mp hfphex _ hm) (by decide)
  have hkeyNoHash : ('#' : Char) ∉ key := fun hm =>
    absurd (List.all_eq_true.mp hkeyAl _ hm) (by decide)
  have hNoHashInner :
      ('#' : Char) ∉ '[' :: (fp ++ '/' :: (pathLit ++ ']' :: (key ++ multipathTail))) :=
    not_mem_cons_of (by decide)
      (not_mem_append_of hfpNoHash
        (not_mem_cons_of (by decide)
          (not_mem_append_of hpathNoHash
            (not_mem_cons_of (by decide)
              (not_mem_append_of hkeyNoHash (by decide))))))
  have hNoHash : ('#' : Char) ∉
      st.wrapWith ('[' :: (fp ++ '/' :: (pathLit ++ ']' :: (key ++ multipathTail)))) := by
    cases st <;>
      · intro hm
        unfold ScriptType.wrapWith at hm
        rcases List.mem_append.mp hm with hm | hm
        · rcases List.mem_append.mp hm with hm | hm
          · exact absurd hm (by decide)
          · exact hNoHashInner hm
        · exact absurd hm (by decide)
  unfold parseDescLine
  rw [stripChecksum_of_not_mem _ hNoHash, stripTemplate_wrapWith]
  dsimp only [Except.bind, bind]
  rw [parseOrigin_built fp pathLit (key ++ multipathTail) pathRes hfplen hfphex
    hpath hpathNoBr]
  dsimp only [Except.bind, bind]
  rw [parseKeySteps_built key hkeyNe hkeyAl]

/-- `try_from_line` on a line that parses to the crate's standard shape:
the multipath marker is split into branch 0 (external) and branch 1
(internal). -/
theorem tryFromLine_of_parse (line : Str) (st : ScriptType)
    (o : Option (Str × DerivationPath)) (key : Str)
    (hp : parseDescLine line = .ok ⟨st, o, key, [.multi [0, 1], .star]⟩) :
    Descriptors.tryFromLine line
      = .ok ⟨⟨st, o, key, [.num 0, .star]⟩, ⟨st, o, key, [.num 1, .star]⟩⟩ := by
  unfold Descriptors.tryFromLine
  rw [hp]
  rfl

/-! ## Claim C3 -/

/-- Branch substitution leaves non-multipath steps unchanged. -/
theorem map_applyBranch_of_no_multi (k : Nat) (s : List Step)
    (h : ∀ st ∈ s, st.isMulti = false) : s.map (applyBranch k) = s := by
  induction s with
  | nil => rfl
  | cons a rest ih =>
    have hmem := h a (List.mem_cons_self a rest)
    have ha : applyBranch k a = a := by
      cases a with
      | num n => rfl
      | star => rfl
      | multi ns => simp [Step.isMulti] at hmem
    rw [List.map_cons, ha, ih (fun st hst => h st (List.mem_cons_of_mem a hst))]

/-- Non-multipath steps contribute nothing to the arity list. -/
theorem filterMap_arity_of_no_multi (s : List Step)
    (h : ∀ st ∈ s, st.isMulti = false) :
    (s.filterMap fun st =>
      match st with
      | .multi ns => some ns.length
      | _ => none) = [] := by
  induction s with
  | nil => rfl
  | cons a rest ih =>
    have hmem := h a (List.mem_cons_self a rest)
    have htail := ih (fun st hst => h st (List.mem_cons_of_mem a hst))
    cases a with
    | num n => simpa [List.filterMap_cons] using htail
    | star => simpa [List.filterMap_cons] using htail
    | multi ns => simp [Step.isMulti] at hmem

/-- C3 amended: for a `Descriptors` produced from a SINGLE multipath line
whose only multipath marker is literally `<0;1>`, the rendered external and
internal descriptors are identical except for the branch digit `0` versus
`1`.  (The claim as stated also covers the two-separate-lines constructor,
where it fails — see the counterexample.) -/
theorem c3_branch_digit_invariant (line : Str) (pd : ParsedDesc)
    (d : Descriptors) (s₁ s₂ : List Step)
    (hp : parseDescLine line = .ok pd)
    (hsteps : pd.steps = s₁ ++ .multi [0, 1] :: s₂)
    (hone : ∀ st ∈ s₁ ++ s₂, st.isMulti = false)
    (hd : Descriptors.tryFromLine line = .ok d) :
    ∃ p q, renderDesc d.external = p ++ '0' :: q
      ∧ renderDesc d.internal = p ++ '1' :: q := by
  have hone₁ : ∀ st ∈ s₁, st.isMulti = false := fun st hst =>
    hone st (List.mem_append.mpr (Or.inl hst))
  have hone₂ : ∀ st ∈ s₂, st.isMulti = false := fun st hst =>
    hone st (List.mem_append.mpr (Or.inr hst))
  have hmp : pd.isMultipath = true := by
    unfold ParsedDesc.isMultipath
    rw [hsteps]
    simp [Step.isMulti]
  have har : multiArities pd = [2] := by
    unfold multiArities
    rw [hsteps, List.filterMap_append, List.filterMap_cons,
      filterMap_arity_of_no_multi s₁ hone₁, filterMap_arity_of_no_multi s₂ hone₂]
    rfl
  have hsingle : intoSingleDescriptors pd
      = .ok [substBranch 0 pd, substBranch 1 pd] := by
    unfold intoSingleDescriptors
    rw [har]
    rfl
  have hdval : d = ⟨substBranch 0 pd, substBranch 1 pd⟩ := by
    unfold Descriptors.tryFromLine at hd
    rw [hp] at hd
    dsimp only at hd
    rw [hmp] at hd
    simp only [Bool.not_true, Bool.false_eq_true, if_false] at hd
    rw [hsingle] at hd
    simpa using hd.symm
  have hsub : ∀ k b, b = '0' ∨ b = '1' →
      renderStep (applyBranch k (Step.multi [0, 1])) = [b] →
      (substBranch k pd).steps = s₁ ++ Step.num ([0, 1].getD k 0) :: s₂ := by
    intro k b _ _
    unfold substBranch
    rw [hsteps, List.map_append, List.map_cons,
      map_applyBranch_of_no_multi k s₁ hone₁, map_applyBranch_of_no_multi k s₂ hone₂]
    rfl
  have hsteps0 : (substBranch 0 pd).steps = s₁ ++ Step.num 0 :: s₂ :=
    hsub 0 '0' (Or.inl rfl) rfl
  have hsteps1 : (substBranch 1 pd).steps = s₁ ++ Step.num 1 :: s₂ :=
    hsub 1 '1' (Or.inr rfl) rfl
  have hflat : ∀ (k : Nat) (s : List Step),
      ((s₁ ++ Step.num k :: s).map (fun st => '/' :: renderStep st)).flatten
        = (s₁.map (fun st => '/' :: renderStep st)).flatten
          ++ '/' :: (natDigits k
            ++ (s.map (fun st => '/' :: renderStep st)).flatten) := by
    intro k s
    rw [List.map_append, List.map_cons, List.flatten_append, List.flatten_cons]
    simp [renderStep]
  have htmpl : ∀ (tpl : ScriptType) (a b : Str), tpl.wrapWith (a ++ b)
      = (match tpl with
        | .p2pkh => "pkh(".data
        | .p2shP2wpkh => "sh(wpkh(".data
        | .p2wpkh => "wpkh(".data) ++ (a ++ (b ++ (match tpl with
        | .p2pkh => ")".data
        | .p2shP2wpkh => "))".data
        | .p2wpkh => ")".data))) := by
    intro tpl a b
    cases tpl <;> simp [ScriptType.wrapWith]
  have horigin : ∀ k, (substBranch k pd).origin = pd.origin := fun _ => rfl
  have hkey : ∀ k, (substBranch k pd).key = pd.key := fun _ => rfl
  have htpl : ∀ k, (substBranch k pd).template = pd.template := fun _ => rfl
  refine ⟨(match pd.template with
      | .p2pkh => "pkh(".data
      | .p2shP2wpkh => "sh(wpkh(".data
      | .p2wpkh => "wpkh(".data)
      ++ ((match pd.origin with
        | some (fp, path) =>
          '[' :: fp ++ (if path = [] then [] else '/' :: renderPath path) ++ [']']
        | none => []) ++ (pd.key
        ++ ((s₁.map (fun st => '/' :: renderStep st)).flatten ++ ['/']))),
    (s₂.map (fun st => '/' :: renderStep st)).flatten ++ (match pd.template with
      | .p2pkh => ")".data
      | .p2shP2wpkh => "))".data
      | .p2wpkh => ")".data), ?_, ?_⟩ <;>
    · rw [hdval]
      unfold renderDesc renderInner
      first
        | rw [htpl, horigin, hkey, hsteps0]
        | rw [htpl, horigin, hkey, hsteps1]
      rw [hflat, htmpl]
      have hd0 : (Nat.toDigits 10 0).asString.data = ['0'] := by decide
      have hd1 : (Nat.toDigits 10 1).asString.data = ['1'] := by decide
      simp [natDigits, Nat.repr, List.append_assoc, hd0, hd1]

/-- Two separate descriptor lines with unrelated keys and branch indices,
accepted by the two-line constructor without any branch verification. -/
def c3Input : Str := "wpkh(keyAAA/0/*)\npkh(keyBBB/5/*)".data

/-- The pair the two-line constructor produces for `c3Input`. -/
def c3Descs : Descriptors :=
  ⟨⟨.p2wpkh, none, "keyAAA".data, [.num 0, .star]⟩,
    ⟨.p2pkh, none, "keyBBB".data, [.num 5, .star]⟩⟩

/-- C3 counterexample: the claim quantifies over every constructor, but the
two-separate-lines path pairs the lines positionally with no branch-index
verification, so the external and internal descriptors need not differ in
exactly one branch digit — here they even have different lengths. -/
theorem c3_counterexample :
    Descriptors.tryFromStr testEnv c3Input = .ok c3Descs
      ∧ ¬∃ p q : Str, renderDesc c3Descs.external = p ++ '0' :: q
          ∧ renderDesc c3Descs.internal = p ++ '1' :: q := by
  refine ⟨by decide, ?_⟩
  rintro ⟨p, q, h1, h2⟩
  have hl1 : (renderDesc c3Descs.external).length = 16 := by decide
  have hl2 : (renderDesc c3Descs.internal).length = 15 := by decide
  rw [h1] at hl1
  rw [h2] at hl2
  simp [List.length_append] at hl1 hl2
  omega

/-- A single multipath line for the C3 witness. -/
def c3Line : Str := "wpkh(keyAAA/<0;1>/*)".data

/-- The split pair of `c3Line`. -/
def c3WitnessDescs : Descriptors :=
  ⟨⟨.p2wpkh, none, "keyAAA".data, [.num 0, .star]⟩,
    ⟨.p2wpkh, none, "keyAAA".data, [.num 1, .star]⟩⟩

/-- Witness for C3 amended: a concrete multipath line splits into an
external/internal pair differing exactly at the branch digit. -/
theorem c3_witness :
    (parseDescLine c3Line
        = .ok ⟨.p2wpkh, none, "keyAAA".data, [.multi [0, 1], .star]⟩
      ∧ (∀ st ∈ ([] : List Step) ++ [Step.star], st.isMulti = false)
      ∧ Descriptors.tryFromLine c3Line = .ok c3WitnessDescs)
    ∧ (∃ p q, renderDesc c3WitnessDescs.external = p ++ '0' :: q
        ∧ renderDesc c3WitnessDescs.internal = p ++ '1' :: q) :=
  ⟨⟨by decide, by decide, by decide⟩,
    c3_branch_digit_invariant c3Line
      ⟨.p2wpkh, none, "keyAAA".data, [.multi [0, 1], .star]⟩
      c3WitnessDescs [] [Step.star] (by decide) rfl (by decide) (by decide)⟩

/-! ## Claim C2 -/

/-- Alphanumeric characters are ASCII. -/
theorem alnum_ascii (c : Char) (h : c.isAlphanum = true) : c.toNat < 128 := by
  simp [Char.isAlphanum, Char.isAlpha, Char.isDigit, Char.isUpper, Char.isLower,
    Bool.or_eq_true, Bool.and_eq_true, decide_eq_true_eq] at h
  show c.val.toNat < 128
  rcases h with (⟨h1, h2⟩ | ⟨h1, h2⟩) | ⟨h1, h2⟩ <;>
    exact Nat.lt_of_le_of_lt (UInt32.le_def.mp h2) (by decide)

/-- Alphanumeric characters are not whitespace. -/
theorem alnum_not_ws (c : Char) (h : c.isAlphanum = true) :
    c.isWhitespace = false := by
  by_contra hws
  rw [Bool.not_eq_false] at hws
  simp [Char.isWhitespace, Bool.or_eq_true, decide_eq_true_eq] at hws
  rcases hws with ((h1 | h1) | h1) | h1 <;> subst h1 <;> exact absurd h (by decide)

/-- Members of a Boolean prefix are members of the larger list. -/
theorem mem_of_isPrefixOf {p l : Str} (h : p.isPrefixOf l = true) {a : Char}
    (ha : a ∈ p) : a ∈ l := by
  induction p generalizing l with
  | nil => simp at ha
  | cons b bs ih =>
    cases l with
    | nil => simp [List.isPrefixOf] at h
    | cons c cs =>
      have h' : (b == c && bs.isPrefixOf cs) = true := h
      rw [Bool.and_eq_true] at h'
      rcases List.mem_cons.mp ha with hab | hab
      · rw [hab, eq_of_beq h'.1]
        exact List.mem_cons_self c cs
      · exact List.mem_cons_of_mem c (ih h'.2 hab)

/-- Trimming is the identity on whitespace-free text. -/
theorem trimStr_eq_self (l : Str) (h : ∀ c ∈ l, c.isWhitespace = false) :
    trimStr l = l := by
  have hdrop : ∀ m : Str, (∀ c ∈ m, c.isWhitespace = false) →
      m.dropWhile Char.isWhitespace = m := by
    intro m hm
    cases m with
    | nil => rfl
    | cons a r =>
      rw [List.dropWhile_cons, hm a (List.mem_cons_self a r)]
      rfl
  unfold trimStr
  rw [hdrop l h, hdrop l.reverse (fun c hc => h c (List.mem_reverse.mp hc)),
    List.reverse_reverse]

/-- C2 amended: a bare extended child key (depth at least 1) falls through
the cascade to the bare-key handling, which synthesizes all three
script-type outputs with the placeholder all-zero fingerprint and the path
returned by `descriptor_derivation_path`: the canonical 3-segment prefix
for bip44 and bip84, but the 2-SEGMENT prefix `49'/0'` for bip49. -/
theorem c2_bare_child_key_cascade (env : Env) (s : Str) (x : Bip32Xpub)
    (hsNe : s ≠ [])
    (hsAl : s.all Char.isAlphanum = true)
    (hx : env.xpubFromStr s = .ok x)
    (hdepth : ¬x.depth = 0)
    (hksNe : x.asString ≠ [])
    (hksAl : x.asString.all Char.isAlphanum = true)
    (hg : env.parseGenericJson s = none)
    (hw : env.parseWasabiJson s = none)
    (he : env.parseElectrumJson s = none) :
    Format.tryNewFromStr env s = .ok (.json
      ⟨some ⟨⟨.p2pkh, some (zeroFpStr, [HARDENED_44, hardenedFlag, hardenedFlag]),
          x.asString, [.num 0, .star]⟩,
        ⟨.p2pkh, some (zeroFpStr, [HARDENED_44, hardenedFlag, hardenedFlag]),
          x.asString, [.num 1, .star]⟩⟩,
      some ⟨⟨.p2shP2wpkh, some (zeroFpStr, [HARDENED_49, hardenedFlag]),
          x.asString, [.num 0, .star]⟩,
        ⟨.p2shP2wpkh, some (zeroFpStr, [HARDENED_49, hardenedFlag]),
          x.asString, [.num 1, .star]⟩⟩,
      some ⟨⟨.p2wpkh, some (zeroFpStr, [HARDENED_84, hardenedFlag, hardenedFlag]),
          x.asString, [.num 0, .star]⟩,
        ⟨.p2wpkh, some (zeroFpStr, [HARDENED_84, hardenedFlag, hardenedFlag]),
          x.asString, [.num 1, .star]⟩⟩⟩) := by
  have hall := List.all_eq_true.mp hsAl
  have hnotin : ∀ c : Char, c.isAlphanum = false → c ∉ s := by
    intro c hc hm
    rw [hall c hm] at hc
    simp at hc
  have hse : s.isEmpty = false := by
    cases s with
    | nil => exact absurd rfl hsNe
    | cons _ _ => rfl
  -- Step A: the key-expression parser accepts s as a bare key.
  have hke : KeyExpression.tryFromStr env s = .ok ⟨x, none, none, none⟩ := by
    unfold KeyExpression.tryFromStr
    have hascii : (s.all fun c => decide (c.toNat < 128)) = true :=
      List.all_eq_true.mpr (fun c hc => decide_eq_true (alnum_ascii c (hall c hc)))
    rw [hascii]
    simp only [Bool.not_true, Bool.false_eq_true, if_false]
    have hhead : (s.head? == some '[') = false := by
      cases s with
      | nil => rfl
      | cons c r =>
        have hc := hall c (List.mem_cons_self c r)
        simp only [List.head?_cons]
        by_contra hb
        rw [Bool.not_eq_false] at hb
        have hcb : c = '[' := by simpa using hb
        rw [hcb] at hc
        exact absurd hc (by decide)
    have hcontBrC : s.contains ']' = false := by
      by_contra hb
      rw [Bool.not_eq_false] at hb
      exact hnotin ']' (by decide) (by simpa using hb)
    have hcontBrO : s.contains '[' = false := by
      by_contra hb
      rw [Bool.not_eq_false] at hb
      exact hnotin '[' (by decide) (by simpa using hb)
    have hopt : parseOptionalFingerprintAndPath s = .ok (none, none, s) := by
      unfold parseOptionalFingerprintAndPath
      rw [hhead, hcontBrC]
      simp
    rw [hopt]
    dsimp only
    rw [hcontBrO]
    simp only [Bool.false_and, Bool.false_eq_true, if_false]
    have hxd : parseXpubAndDerivation s = .ok (s, none) := by
      unfold parseXpubAndDerivation
      rw [splitFirst_eq_none '/' s (hnotin '/' (by decide))]
    rw [hxd]
    dsimp only
    rw [hx]
  -- Step B: the descriptor-text attempt fails.
  have hdesc : Descriptors.tryFromStr env s
      = .error (.invalidDescriptorParse .badTemplate) := by
    have htrim : trimStr s = s :=
      trimStr_eq_self s (fun c hc => alnum_not_ws c (hall c hc))
    have hpd : parseDescLine s = .error .badTemplate := by
      unfold parseDescLine
      rw [stripChecksum_of_not_mem s (hnotin '#' (by decide))]
      have hpre : ∀ t : Str, ('(' : Char) ∈ t → t.isPrefixOf s = false := by
        intro t hparen
        by_contra hb
        rw [Bool.not_eq_false] at hb
        exact hnotin '(' (by decide) (mem_of_isPrefixOf hb hparen)
      have hst : stripTemplate s = .error .badTemplate := by
        unfold stripTemplate
        rw [hpre "sh(wpkh(".data (by decide)]
        simp only [Bool.false_eq_true, if_false]
        rw [hpre "pkh(".data (by decide)]
        simp only [Bool.false_eq_true, if_false]
        rw [hpre "wpkh(".data (by decide)]
        simp only [Bool.false_eq_true, if_false]
      rw [hst]
      rfl
    have hlinesv : ((splitOnChar '\n' (trimStr s)).filter
        (fun line => !line.isEmpty)).map trimStr = [s] := by
      rw [htrim, splitOnChar_eq_single '\n' s (hnotin '\n' (by decide))]
      simp [List.filter, hse, htrim]
    unfold Descriptors.tryFromStr
    rw [hlinesv]
    dsimp only
    have hjsonHead : ((trimStr s).head? == some lbraceChar) = false := by
      rw [htrim]
      cases s with
      | nil => rfl
      | cons c r =>
        have hc := hall c (List.mem_cons_self c r)
        simp only [List.head?_cons]
        by_contra hb
        rw [Bool.not_eq_false] at hb
        have hcb : c = lbraceChar := by simpa using hb
        rw [hcb] at hc
        exact absurd hc (by decide)
    simp only [List.head?_cons]
    simp only [hjsonHead, Bool.false_eq_true, if_false]
    unfold Descriptors.tryFromLine
    rw [hpd]
  -- Step C: the three synthesized child-xpub descriptor pairs.
  have hzf : zeroFpStr.map Char.toLower = zeroFpStr := by decide
  have h44 : Descriptors.tryFromChildXpub x .p2pkh = .ok
      ⟨⟨.p2pkh, some (zeroFpStr, [HARDENED_44, hardenedFlag, hardenedFlag]),
        x.asString, [.num 0, .star]⟩,
      ⟨.p2pkh, some (zeroFpStr, [HARDENED_44, hardenedFlag, hardenedFlag]),
        x.asString, [.num 1, .star]⟩⟩ := by
    unfold Descriptors.tryFromChildXpub
    rw [if_neg hdepth]
    dsimp only
    rw [← hzf]
    exact tryFromLine_of_parse _ _ _ _
      (parseDescLine_built .p2pkh zeroFpStr
        (ScriptType.descriptorDerivationPath .p2pkh) x.asString
        [HARDENED_44, hardenedFlag, hardenedFlag]
        (by decide) (by decide) (by decide) (by decide) (by decide) hksNe hksAl)
  have h49 : Descriptors.tryFromChildXpub x .p2shP2wpkh = .ok
      ⟨⟨.p2shP2wpkh, some (zeroFpStr, [HARDENED_49, hardenedFlag]),
        x.asString, [.num 0, .star]⟩,
      ⟨.p2shP2wpkh, some (zeroFpStr, [HARDENED_49, hardenedFlag]),
        x.asString, [.num 1, .star]⟩⟩ := by
    unfold Descriptors.tryFromChildXpub
    rw [if_neg hdepth]
    dsimp only
    rw [← hzf]
    exact tryFromLine_of_parse _ _ _ _
      (parseDescLine_built .p2shP2wpkh zeroFpStr
        (ScriptType.descriptorDerivationPath .p2shP2wpkh) x.asString
        [HARDENED_49, hardenedFlag]
        (by decide) (by decide) (by decide) (by decide) (by decide) hksNe hksAl)
  have h84 : Descriptors.tryFromChildXpub x .p2wpkh = .ok
      ⟨⟨.p2wpkh, some (zeroFpStr, [HARDENED_84, hardenedFlag, hardenedFlag]),
        x.asString, [.num 0, .star]⟩,
      ⟨.p2wpkh, some (zeroFpStr, [HARDENED_84, hardenedFlag, hardenedFlag]),
        x.asString, [.num 1, .star]⟩⟩ := by
    unfold Descriptors.tryFromChildXpub
    rw [if_neg hdepth]
    dsimp only
    rw [← hzf]
    exact tryFromLine_of_parse _ _ _ _
      (parseDescLine_built .p2wpkh zeroFpStr
        (ScriptType.descriptorDerivationPath .p2wpkh) x.asString
        [HARDENED_84, hardenedFlag, hardenedFlag]
        (by decide) (by decide) (by decide) (by decide) (by decide) hksNe hksAl)
  have hjson : Json.tryFromChildXpub x = .ok
      ⟨some ⟨⟨.p2pkh, some (zeroFpStr, [HARDENED_44, hardenedFlag, hardenedFlag]),
          x.asString, [.num 0, .star]⟩,
        ⟨.p2pkh, some (zeroFpStr, [HARDENED_44, hardenedFlag, hardenedFlag]),
          x.asString, [.num 1, .star]⟩⟩,
      some ⟨⟨.p2shP2wpkh, some (zeroFpStr, [HARDENED_49, hardenedFlag]),
          x.asString, [.num 0, .star]⟩,
        ⟨.p2shP2wpkh, some (zeroFpStr, [HARDENED_49, hardenedFlag]),
          x.asString, [.num 1, .star]⟩⟩,
      some ⟨⟨.p2wpkh, some (zeroFpStr, [HARDENED_84, hardenedFlag, hardenedFlag]),
          x.asString, [.num 0, .star]⟩,
        ⟨.p2wpkh, some (zeroFpStr, [HARDENED_84, hardenedFlag, hardenedFlag]),
          x.asString, [.num 1, .star]⟩⟩⟩ := by
    unfold Json.tryFromChildXpub
    rw [h44]
    dsimp only
    rw [h49]
    dsimp only
    rw [h84]
  -- Step D: assemble the cascade.
  have hafter : Format.afterJsonAttempts env s = .ok (.json
      ⟨some ⟨⟨.p2pkh, some (zeroFpStr, [HARDENED_44, hardenedFlag, hardenedFlag]),
          x.asString, [.num 0, .star]⟩,
        ⟨.p2pkh, some (zeroFpStr, [HARDENED_44, hardenedFlag, hardenedFlag]),
          x.asString, [.num 1, .star]⟩⟩,
      some ⟨⟨.p2shP2wpkh, some (zeroFpStr, [HARDENED_49, hardenedFlag]),
          x.asString, [.num 0, .star]⟩,
        ⟨.p2shP2wpkh, some (zeroFpStr, [HARDENED_49, hardenedFlag]),
          x.asString, [.num 1, .star]⟩⟩,
      some ⟨⟨.p2wpkh, some (zeroFpStr, [HARDENED_84, hardenedFlag, hardenedFlag]),
          x.asString, [.num 0, .star]⟩,
        ⟨.p2wpkh, some (zeroFpStr, [HARDENED_84, hardenedFlag, hardenedFlag]),
          x.asString, [.num 1, .star]⟩⟩⟩) := by
    unfold Format.afterJsonAttempts
    rw [hdesc]
    dsimp only
    rw [hke]
    dsimp only
    rw [show Descriptors.tryFromKeyExpression ⟨x, none, none, none⟩
      = .error .missingKeyExpressionFields from rfl]
    dsimp only
    rw [hjson]
  unfold Format.tryNewFromStr
  rw [hg]
  dsimp only
  rw [hw]
  dsimp only
  rw [he]
  dsimp only
  exact hafter

/-- C2 counterexample: running the full cascade on the concrete bare child
key input yields a bip49 output whose origin derivation path has 2 segments,
not the canonical 3 claimed. -/
theorem c2_counterexample :
    (match Format.tryNewFromStr testEnv "childkeyA".data with
      | .ok (.json j) =>
          j.bip49.map fun d => d.external.origin.map fun o => o.2.length
      | _ => none) = some (some 2)
      ∧ (match Format.tryNewFromStr testEnv "childkeyA".data with
      | .ok (.json j) =>
          j.bip49.map fun d => d.external.origin.map fun o => o.2.length
      | _ => none) ≠ some (some 3) := by
  constructor
  · decide
  · decide

/-- Witness for C2: the cascade theorem applied at the concrete test
environment and the concrete bare child key. -/
theorem c2_witness :
    Format.tryNewFromStr testEnv "childkeyA".data = .ok (.json
      ⟨some ⟨⟨.p2pkh, some (zeroFpStr, [HARDENED_44, hardenedFlag, hardenedFlag]),
          childKeyA.asString, [.num 0, .star]⟩,
        ⟨.p2pkh, some (zeroFpStr, [HARDENED_44, hardenedFlag, hardenedFlag]),
          childKeyA.asString, [.num 1, .star]⟩⟩,
      some ⟨⟨.p2shP2wpkh, some (zeroFpStr, [HARDENED_49, hardenedFlag]),
          childKeyA.asString, [.num 0, .star]⟩,
        ⟨.p2shP2wpkh, some (zeroFpStr, [HARDENED_49, hardenedFlag]),
          childKeyA.asString, [.num 1, .star]⟩⟩,
      some ⟨⟨.p2wpkh, some (zeroFpStr, [HARDENED_84, hardenedFlag, hardenedFlag]),
          childKeyA.asString, [.num 0, .star]⟩,
        ⟨.p2wpkh, some (zeroFpStr, [HARDENED_84, hardenedFlag, hardenedFlag]),
          childKeyA.asString, [.num 1, .star]⟩⟩⟩) :=
  c2_bare_child_key_cascade testEnv "childkeyA".data childKeyA
    (by decide) (by decide) (by decide) (by decide) (by decide) (by decide)
    rfl rfl rfl

/-! ## Claim C5 -/

/-- Replacement recursion step when the pattern matches at the head. -/
theorem replaceAll_cons_append (c : Char) (p rep rest : Str) :
    replaceAll (c :: p) rep ((c :: p) ++ rest) = rep ++ replaceAll (c :: p) rep rest := by
  conv_lhs => rw [replaceAll.eq_def]
  rw [dif_neg (by simp : ¬(c :: p) = [])]
  simp only [List.cons_append]
  rw [if_pos (by simp [isPrefixOf_append_self] : ((c :: p).isPrefixOf (c :: (p ++ rest)) = true))]
  simp only [List.length_cons, List.drop_succ_cons, List.drop_left]

/-- Replacement is the identity when the pattern head never occurs. -/
theorem replaceAll_head_not_mem (c : Char) (p rep l : Str) (h : c ∉ l) :
    replaceAll (c :: p) rep l = l := by
  induction l with
  | nil =>
    unfold replaceAll
    simp
  | cons a t ih =>
    have hca : ¬((c :: p).isPrefixOf (a :: t) = true) := by
      intro hb
      exact h (mem_of_isPrefixOf hb (List.mem_cons_self c p))
    unfold replaceAll
    rw [dif_neg (by simp : ¬(c :: p) = [])]
    dsimp only
    rw [if_neg hca, ih (fun hm => h (List.mem_cons_of_mem a hm))]

/-- A hex nibble renders to a hexadecimal character. -/
theorem hexCharLower_hex (n : Nat) (h : n < 16) :
    isHexDigitChar (hexCharLower n) = true := by
  interval_cases n <;> decide

/-- Lowercase hex digits are fixed by `Char.toLower`. -/
theorem hexCharLower_lower (n : Nat) (h : n < 16) :
    (hexCharLower n).toLower = hexCharLower n := by
  interval_cases n <;> decide

/-- A rendered fingerprint has two characters per byte. -/
theorem fpToStr_length (bs : List Nat) : (fpToStr bs).length = 2 * bs.length := by
  induction bs with
  | nil => rfl
  | cons b t ih =>
    simp only [fpToStr, List.map_cons, List.flatten_cons, List.length_append,
      List.length_cons, List.length_nil] at *
    omega

/-- A rendered fingerprint is all hexadecimal characters. -/
theorem fpToStr_hex (bs : List Nat) : (fpToStr bs).all isHexDigitChar = true := by
  induction bs with
  | nil => rfl
  | cons b t ih =>
    simp only [fpToStr, List.map_cons, List.flatten_cons] at *
    simp [List.all_cons, ih,
      hexCharLower_hex (b / 16 % 16) (Nat.mod_lt _ (by decide)),
      hexCharLower_hex (b % 16) (Nat.mod_lt _ (by decide))]

/-- A rendered fingerprint is already lowercase. -/
theorem fpToStr_toLower (bs : List Nat) :
    (fpToStr bs).map Char.toLower = fpToStr bs := by
  induction bs with
  | nil => rfl
  | cons b t ih =>
    simp only [fpToStr, List.map_cons, List.flatten_cons, List.map_append] at *
    simp [ih, hexCharLower_lower (b / 16 % 16) (Nat.mod_lt _ (by decide)),
      hexCharLower_lower (b % 16) (Nat.mod_lt _ (by decide))]

/-- C5: the Electrum fingerprint is resolved by precedence — an explicit
`ckcc_xfp` (byte-swapped, rendered `{:08X}`) wins, else a fingerprint
derived from `ckcc_xpub`, else the self-computed fingerprint of the
supplied key; and in the spec scenario (both ckcc fields absent, supplied
key with all-zero stored parent fingerprint, derivation `m/84h/0h/0h`),
the descriptor pair assembled by `TryFrom<ElectrumJson>` carries the key's
OWN computed fingerprint in its origin, not the all-zero one. -/
theorem c5_electrum_fingerprint_precedence :
    (∀ (env : Env) (ks : Keystore) (x : XpubS) (n : Nat), ks.ckccXfp = some n →
      electrumFingerprint env ks x = .ok (hex8Upper (swapBytes32 n)))
    ∧ (∀ (env : Env) (ks : Keystore) (x : XpubS) (ck : Str) (f : List Nat),
      ks.ckccXfp = none → ks.ckccXpub = some ck →
      xpubStrToFingerprint env ck = .ok f →
      electrumFingerprint env ks x = .ok (fpToStr f))
    ∧ (∀ (env : Env) (xs : Str) (x : XpubS),
      ¬byteLen xs < 4 →
      xpubTryFrom env xs = .ok x →
      x.xpub.parentFingerprint = [0, 0, 0, 0] →
      x.xpub.ownFingerprint.length = 4 →
      x.xpub.asString ≠ [] →
      x.xpub.asString.all Char.isAlphanum = true →
      Descriptors.tryFromElectrum env ⟨0, false, [], "m/84h/0h/0h".data, xs, none, none⟩
        = .ok ⟨⟨.p2wpkh, some (fpToStr x.xpub.ownFingerprint,
            [HARDENED_84, hardenedFlag, hardenedFlag]), x.xpub.asString, [.num 0, .star]⟩,
          ⟨.p2wpkh, some (fpToStr x.xpub.ownFingerprint,
            [HARDENED_84, hardenedFlag, hardenedFlag]), x.xpub.asString,
            [.num 1, .star]⟩⟩) := by
  refine ⟨?_, ?_, ?_⟩
  · intro env ks x n h
    unfold electrumFingerprint
    rw [h]
  · intro env ks x ck f h1 h2 h3
    unfold electrumFingerprint
    rw [h1, h2]
    dsimp only
    rw [h3]
  · intro env xs x hlen hxp hzero hfp4 hksNe hksAl
    have hfpv : xpubToFingerprint x.xpub = .ok x.xpub.ownFingerprint := by
      unfold xpubToFingerprint
      rw [hzero]
    have hef : electrumFingerprint env ⟨"m/84h/0h/0h".data, xs, none, none⟩ x
        = .ok (fpToStr x.xpub.ownFingerprint) := by
      unfold electrumFingerprint
      dsimp only
      rw [hfpv]
    have hline := tryFromLine_of_parse
      (ScriptType.p2wpkh.wrapWith
        ('[' :: (fpToStr x.xpub.ownFingerprint ++ '/' :: ("84h/0h/0h".data
          ++ ']' :: (x.xpub.asString ++ multipathTail))))) .p2wpkh
      (some ((fpToStr x.xpub.ownFingerprint).map Char.toLower,
        [HARDENED_84, hardenedFlag, hardenedFlag])) x.xpub.asString
      (parseDescLine_built .p2wpkh (fpToStr x.xpub.ownFingerprint)
        "84h/0h/0h".data x.xpub.asString [HARDENED_84, hardenedFlag, hardenedFlag]
        (by rw [fpToStr_length, hfp4]) (fpToStr_hex _) (by decide) (by decide)
        (by decide) hksNe hksAl)
    rw [fpToStr_toLower] at hline
    have hderiv : replaceAll "m/".data [] "m/84h/0h/0h".data = "84h/0h/0h".data := by
      rw [show ("m/84h/0h/0h".data : Str) = ('m' :: "/".data) ++ "84h/0h/0h".data
          from by decide,
        show ("m/".data : Str) = 'm' :: "/".data from by decide,
        replaceAll_cons_append,
        replaceAll_head_not_mem 'm' "/".data [] "84h/0h/0h".data (by decide)]
      rfl
    unfold Descriptors.tryFromElectrum
    dsimp only
    simp only [show (("m/84".data : Str).isPrefixOf "m/84h/0h/0h".data) = true
        from by decide,
      show (("m/49".data : Str).isPrefixOf "m/84h/0h/0h".data) = false from by decide,
      show (("m/44".data : Str).isPrefixOf "m/84h/0h/0h".data) = false from by decide,
      if_true, Bool.false_eq_true, if_false]
    rw [if_neg hlen]
    rw [hxp]
    dsimp only
    rw [hef]
    dsimp only
    rw [hderiv, hline]

/-- Witness for C5: the self-computed branch of the precedence theorem at a
concrete environment and a concrete zero-parent key. -/
theorem c5_witness :
    Descriptors.tryFromElectrum testEnv
        ⟨0, false, [], "m/84h/0h/0h".data, "xpubZeroC".data, none, none⟩
      = .ok ⟨⟨.p2wpkh, some (fpToStr xpubKeyD.ownFingerprint,
          [HARDENED_84, hardenedFlag, hardenedFlag]), xpubKeyD.asString,
          [.num 0, .star]⟩,
        ⟨.p2wpkh, some (fpToStr xpubKeyD.ownFingerprint,
          [HARDENED_84, hardenedFlag, hardenedFlag]), xpubKeyD.asString,
          [.num 1, .star]⟩⟩ :=
  c5_electrum_fingerprint_precedence.2.2 testEnv "xpubZeroC".data ⟨xpubKeyD, .xpub⟩
    (by decide) (by decide) (by decide) (by decide) (by decide) (by decide)

end Pubport
